import Mathlib

/-!
# MultiROM boot orchestrator: a verification development of `multirom.c`

Shallow embedding of the parts of `src/multirom.c` that classify ROMs, decode
Android boot images, patch init scripts and prepare a ROM for booting, followed
by theorems about them.

Conventions of the embedding:
* C strings are Lean `String`s (paths) or `List Char` (text that is scanned).
* The file system and external programs are explicit arguments: a function that
  the C code gets from a system call is a parameter of the model.
* `int` results keep the C values (`0`, `-1`, bit masks) as `Int`.
-/

namespace MultiROM

/-! ## Data model (`multirom.h`) -/

/-- Modelled from the spec: the ROM classification enum of `multirom.h`, which is
not part of `src/`. The constructor names are the enumerators used by
`multirom.c`. -/
inductive RomType where
  | ROM_DEFAULT
  | ROM_ANDROID_INTERNAL
  | ROM_UBUNTU_INTERNAL
  | ROM_ANDROID_USB_IMG
  | ROM_ANDROID_USB_DIR
  | ROM_UBUNTU_USB_IMG
  | ROM_UBUNTU_USB_DIR
  | ROM_UNKNOWN
  deriving DecidableEq, Repr

open RomType

/-- Modelled from the spec: `struct usb_partition` of `multirom.h` (device name,
filesystem UUID, filesystem type, mount path, keep_mounted flag). The pointers
`uuid` and `fs` are `none` when they are `NULL`. -/
structure usb_partition where
  name : String
  uuid : Option String
  fs : Option String
  mount_path : String
  keep_mounted : Int
  deriving DecidableEq, Repr

/-- Modelled from the spec: `struct multirom_rom` of `multirom.h`. The pointer
`partition` is `none` when it is `NULL`. -/
structure multirom_rom where
  id : Int
  name : String
  base_path : String
  type : RomType
  is_in_root : Int
  has_bootimg : Int
  partition : Option usb_partition
  deriving DecidableEq, Repr

/-- The macro `INTERNAL_ROM_NAME`. -/
def INTERNAL_ROM_NAME : String := "Internal"

/-! ## `multirom_get_rom_type` -/

/-- The macro `FOLDERS`. -/
def FOLDERS : Nat := 3

/-- The table `folders` of `multirom_get_rom_type`; `none` is a `NULL` entry. -/
def folders : List (List (Option String)) :=
  [ [some "system", some "data", some "cache"],
    [some "root", none, none],
    [some "system.img", some "data.img", some "cache.img"],
    [some "root.img", none, none] ]

/-- The table `types_int` of `multirom_get_rom_type`. -/
def types_int : List RomType :=
  [ROM_ANDROID_INTERNAL, ROM_UBUNTU_INTERNAL, ROM_UNKNOWN, ROM_UNKNOWN]

/-- The table `types_usb` of `multirom_get_rom_type`. -/
def types_usb : List RomType :=
  [ROM_ANDROID_USB_DIR, ROM_UBUNTU_USB_DIR, ROM_ANDROID_USB_IMG, ROM_UBUNTU_USB_IMG]

/-- The inner loop `for(y = 0; folders[i][y] && y < FOLDERS && okay; ++y)`:
`row` is what is left of `folders[i]` from index `y` on, `left` is
`FOLDERS - y`. `access path = true` stands for `access(path, R_OK) == 0`.
The result is the final value of `okay`. (At `y = FOLDERS` the C code reads
`folders[i][FOLDERS]`, the first entry of the next row, before it tests
`y < FOLDERS`; the loop ends there whatever that entry is.) The path is the
string `sprintf` builds, not cut to the 256 bytes of `path`. -/
def row_okay (access : String → Bool) (base_path : String) :
    Nat → List (Option String) → Bool
  | 0, _ => true
  | _ + 1, [] => true
  | _ + 1, none :: _ => true
  | left + 1, some f :: rest =>
    if access (base_path ++ "/" ++ f) then row_okay access base_path left rest
    else false

/-- The outer loop `for(i = 0; i < ARRAY_SIZE(folders); ++i)`, started at row
`i`: `rows`, `ti`, `tu` are the tables from index `i` on. Falling off the end of
the table is the final `return ROM_UNKNOWN`. -/
def scan_rows (access : String → Bool) (rom : multirom_rom) :
    List (List (Option String)) → List RomType → List RomType → RomType
  | row :: rows, t_int :: ti, t_usb :: tu =>
    if row_okay access rom.base_path FOLDERS row then
      (if rom.partition.isNone then t_int else t_usb)
    else scan_rows access rom rows ti tu
  | _, _, _ => ROM_UNKNOWN

/-- The function `multirom_get_rom_type`. -/
def multirom_get_rom_type (access : String → Bool) (rom : multirom_rom) : RomType :=
  if rom.partition.isNone && rom.name == INTERNAL_ROM_NAME then ROM_DEFAULT
  else scan_rows access rom folders types_int types_usb

/-! ## Boot images: `multirom_extract_bytes`, `multirom_fill_kexec_android` -/

/-- An open input stream (`FILE *` opened with "r"): the file has `size` bytes,
`byte i` is the byte at offset `i`, and `pos` is the stream position. -/
structure FILE where
  size : Nat
  byte : Nat → Nat
  pos : Nat

/-- Modelled from the spec: the fields of `struct boot_img_hdr` (`bootimg.h`,
not part of `src/`) that `multirom.c` reads. The three sizes are `unsigned`
(32 bits). -/
structure boot_img_hdr where
  kernel_size : Nat
  ramdisk_size : Nat
  page_size : Nat
  cmdline : String

/-- What `multirom_fill_kexec_android` and its callees get from the system.
* `long_bits`: width of `long`, the type of the offset of `fseek`;
* `sizeof_boot_img_hdr`: `sizeof(struct boot_img_hdr)`;
* `fopen_r path`: the stream `fopen(path, "r")` returns, `none` for `NULL`;
* `read_hdr f`: the struct `fread` leaves in `header`, decoded from the first
  bytes of the file by the layout of `bootimg.h` (for a file shorter than the
  struct, bytes that were not read are what the stack held);
* `fopen_w dst`: whether `fopen(dst, "w")` succeeds;
* `uninit dst i`: byte `i` of the buffer `malloc` returns for the copy to `dst`,
  before anything is read into it;
* `proc_cmdline`: the content of `/proc/cmdline`, `none` if it cannot be opened. -/
structure BootEnv where
  long_bits : Nat
  sizeof_boot_img_hdr : Nat
  fopen_r : String → Option FILE
  read_hdr : FILE → boot_img_hdr
  fopen_w : String → Bool
  uninit : String → Nat → Nat
  proc_cmdline : Option String

/-- Reduction of a value to `unsigned` (32 bits). -/
def u32 (n : Nat) : Nat := n % 2 ^ 32

/-- The `n` bytes of the file at offsets `off, off + 1, ...`. -/
def bytes_at (f : FILE) (off n : Nat) : List Nat :=
  (List.range n).map fun i => f.byte (off + i)

/-- The call `fread(buf, 1, n, f)`: the bytes read (fewer than `n` at the end of
the file, none beyond it) and the stream after the read. -/
def fread (f : FILE) (n : Nat) : List Nat × FILE :=
  let cnt := min n (f.size - f.pos)
  (bytes_at f f.pos cnt, { f with pos := f.pos + cnt })

/-- The call `fseek(f, off, SEEK_SET)` with an `unsigned` argument `off`. The
argument is converted to `long`; a value that does not fit becomes negative and
the call fails, leaving the position where it was. The C code ignores the
result. -/
def fseek_set (long_bits : Nat) (f : FILE) (off : Nat) : FILE :=
  if off < 2 ^ (long_bits - 1) then { f with pos := off } else f

/-- Result of `multirom_extract_bytes`: the return value, the content written
to `dst` (`none` when `dst` could not be opened) and the source stream
afterwards. -/
structure ExtractResult where
  ret : Int
  written : Option (List Nat)
  src : FILE

/-- The function `multirom_extract_bytes`. The results of `fread` and `fwrite`
are not looked at: `size` bytes of the buffer are written whatever was read. -/
def multirom_extract_bytes (w : BootEnv) (dst : String) (src : FILE) (size : Nat) :
    ExtractResult :=
  if !w.fopen_w dst then { ret := -1, written := none, src := src }
  else
    let r := fread src size
    let buff := r.1 ++ (List.range (size - r.1.length)).map fun i => w.uninit dst (r.1.length + i)
    { ret := 0, written := some buff, src := r.2 }

/-- Result of `multirom_fill_kexec_android`: `ret` is the return value, `none`
when the function does not return (division by a zero page size); `files` lists
the files written, in order; `cmd2`, `cmd4`, `cmd5` are the strings stored into
`cmd[2]`, `cmd[4]`, `cmd[5]`, `none` when the slot is left untouched. -/
structure FillResult where
  ret : Option Int
  files : List (String × List Nat)
  cmd2 : Option String
  cmd4 : Option String
  cmd5 : Option String
  deriving DecidableEq, Repr

/-- The offset `p + ((header.kernel_size + p - 1) / p)*p` in `unsigned`
arithmetic (`p ≠ 0`). -/
def ramdisk_offset (kernel_size p : Nat) : Nat :=
  u32 (p + u32 (u32 (u32 (kernel_size + p) + (2 ^ 32 - 1)) / p * p))

/-- The file `dst` as an entry of the list of written files. -/
def written_file (dst : String) (e : ExtractResult) : List (String × List Nat) :=
  (e.written.map fun b => (dst, b)).toList

/-- The function `multirom_fill_kexec_android`. -/
def multirom_fill_kexec_android (w : BootEnv) (rom : multirom_rom) : FillResult :=
  let img_path := rom.base_path ++ "/boot.img"
  match w.fopen_r img_path with
  | none => { ret := some (-1), files := [], cmd2 := none, cmd4 := none, cmd5 := none }
  | some f0 =>
    let header := w.read_hdr f0
    let f1 := (fread f0 w.sizeof_boot_img_hdr).2
    let p := header.page_size
    let e1 := multirom_extract_bytes w "/zImage" (fseek_set w.long_bits f1 p) header.kernel_size
    if e1.ret ≠ 0 then
      { ret := some (-1), files := written_file "/zImage" e1,
        cmd2 := none, cmd4 := none, cmd5 := none }
    else if p = 0 then
      { ret := none, files := written_file "/zImage" e1,
        cmd2 := none, cmd4 := none, cmd5 := none }
    else
      let e2 := multirom_extract_bytes w "/initrd.img"
        (fseek_set w.long_bits e1.src (ramdisk_offset header.kernel_size p)) header.ramdisk_size
      if e2.ret ≠ 0 then
        { ret := some (-1), files := written_file "/zImage" e1 ++ written_file "/initrd.img" e2,
          cmd2 := none, cmd4 := none, cmd5 := none }
      else
        match w.proc_cmdline with
        | none =>
          { ret := some (-1),
            files := written_file "/zImage" e1 ++ written_file "/initrd.img" e2,
            cmd2 := none, cmd4 := none, cmd5 := none }
        | some cmdline =>
          { ret := some 0,
            files := written_file "/zImage" e1 ++ written_file "/initrd.img" e2,
            cmd2 := some "/zImage", cmd4 := some "--initrd=/initrd.img",
            cmd5 := some ("--command-line=" ++ cmdline ++ " " ++ header.cmdline) }

/-! ## The Kexec Loader: `multirom_find_file`, `multirom_fill_kexec_ubuntu`,
`multirom_load_kexec` -/

/-- The call `strstr(hay, needle)`: the offset of the first occurrence of
`needle` in `hay`, `none` for `NULL`. -/
def strstr : List Char → List Char → Option Nat
  | [], needle => if needle.isEmpty then some 0 else none
  | c :: t, needle =>
    if needle.isPrefixOf (c :: t) then some 0 else (strstr t needle).map (· + 1)

/-- The macro `REALDATA`. -/
def REALDATA : String := "/realdata"

/-- What the Kexec Loader gets from the system, on top of `BootEnv`.
* `kexec_path`, `busybox_path`: the globals set by `multirom_find_base_dir`;
* `opendir path`: the names `readdir` returns for the directory, in order,
  `none` if it cannot be opened;
* `run_command argv`: the exit status the helper that runs external commands (of `util.h`) reports for the command. -/
structure KexecEnv extends BootEnv where
  kexec_path : String
  busybox_path : String
  opendir : String → Option (List String)
  run_command : List String → Int

/-- The loop of `multirom_find_file` over the directory entries: the first name
that does not start with a dot and contains `name_part`. -/
def find_file_loop (name_part : String) : List String → Option String
  | [] => none
  | d_name :: rest =>
    if d_name.toList.head? = some '.' then find_file_loop name_part rest
    else if (strstr d_name.toList name_part.toList).isNone then find_file_loop name_part rest
    else some d_name

/-- The function `multirom_find_file`: `some res` for the return value 0 with
the string written to `res`, `none` for the return value -1. -/
def multirom_find_file (w : KexecEnv) (name_part path : String) : Option String :=
  match w.opendir path with
  | none => none
  | some entries => (find_file_loop name_part entries).map fun d_name => path ++ "/" ++ d_name

/-- The function `multirom_fill_kexec_ubuntu`. -/
def multirom_fill_kexec_ubuntu (w : KexecEnv) (rom : multirom_rom) : FillResult :=
  let rom_path :=
    if rom.is_in_root = 0 then rom.base_path ++ "/root/boot" else REALDATA ++ "/boot"
  match multirom_find_file w "vmlinuz" rom_path with
  | none => { ret := some (-1), files := [], cmd2 := none, cmd4 := none, cmd5 := none }
  | some vmlinuz =>
    match multirom_find_file w "initrd.img" rom_path with
    | none => { ret := some (-1), files := [], cmd2 := some vmlinuz, cmd4 := none, cmd5 := none }
    | some str =>
      match w.proc_cmdline with
      | none =>
        { ret := some (-1), files := [], cmd2 := some vmlinuz,
          cmd4 := some ("--initrd=" ++ str), cmd5 := none }
      | some cmdline =>
        { ret := some 0, files := [], cmd2 := some vmlinuz,
          cmd4 := some ("--initrd=" ++ str),
          cmd5 := some ("--command-line=" ++ cmdline
            ++ " root=/dev/mmcblk0p9 ro console=tty1 fbcon=rotate:1 quiet") }

/-- Result of `multirom_load_kexec`: the return value (`none` when the function
does not return), the payload decoder that ran with its result, and the external
commands run, in order. -/
structure LoadResult where
  ret : Option Int
  fill : Option FillResult
  android_decode : Bool
  cmds : List (List String)
  deriving DecidableEq, Repr

/-- The array `cmd` of `multirom_load_kexec` after a payload decoder filled it. A
slot that was not written holds the uninitialised buffer, shown as "". -/
def kexec_cmd (w : KexecEnv) (r : FillResult) : List String :=
  [w.kexec_path, "--load-hardboot", r.cmd2.getD "", "--mem-min=0xA0000000",
   r.cmd4.getD "", r.cmd5.getD ""]

/-- The part of `multirom_load_kexec` after the `switch`, entered when the
decoder `r` returned 0. -/
def load_kexec_run (w : KexecEnv) (r : FillResult) (android : Bool) : LoadResult :=
  let res : Int := if w.run_command (kexec_cmd w r) = 0 then 0 else -1
  { ret := some res, fill := some r, android_decode := android,
    cmds := [kexec_cmd w r, [w.busybox_path, "cp", w.kexec_path, "/kexec"]] }

/-- The `switch` arm of `multirom_load_kexec` for a decoder result `r`:
`goto exit` with `res = -1` when it is not 0. -/
def load_kexec_after_fill (w : KexecEnv) (r : FillResult) (android : Bool) : LoadResult :=
  match r.ret with
  | none => { ret := none, fill := some r, android_decode := android, cmds := [] }
  | some v =>
    if v ≠ 0 then { ret := some (-1), fill := some r, android_decode := android, cmds := [] }
    else load_kexec_run w r android

/-- The function `multirom_load_kexec`. -/
def multirom_load_kexec (w : KexecEnv) (rom : multirom_rom) : LoadResult :=
  match rom.type with
  | ROM_UBUNTU_INTERNAL | ROM_UBUNTU_USB_DIR | ROM_UBUNTU_USB_IMG =>
    load_kexec_after_fill w (multirom_fill_kexec_ubuntu w rom) false
  | ROM_ANDROID_INTERNAL | ROM_ANDROID_USB_DIR | ROM_ANDROID_USB_IMG =>
    load_kexec_after_fill w (multirom_fill_kexec_android w.toBootEnv rom) true
  | _ => { ret := some (-1), fill := none, android_decode := false, cmds := [] }

/-! ## The init-script rewriter of `multirom_prep_android_mounts` -/

/-- The scan of `fgets` over the stream `s` with room for `n` more characters:
the characters stored into the buffer and the rest of the stream. It stops after
a newline, when the buffer is full or at the end of the stream. -/
def fgets_take : Nat → List Char → List Char × List Char
  | 0, s => ([], s)
  | _ + 1, [] => ([], [])
  | n + 1, c :: t =>
    if c = '\n' then ([c], t) else (c :: (fgets_take n t).1, (fgets_take n t).2)

/-- The call `fgets(line, size, f)` on a text stream (no NUL byte): the line
stored into the buffer and the rest of the stream, `none` for `NULL` at the end
of the stream. -/
def fgets (size : Nat) (s : List Char) : Option (List Char × List Char) :=
  match s with
  | [] => none
  | _ :: _ => some (fgets_take (size - 1) s)

/-- The lines successive calls of `fgets(line, size, f)` return until the end of
the stream; `fuel` bounds the number of calls (every call takes at least one
character, so the length of the stream is enough). -/
def read_lines (size : Nat) : Nat → List Char → List (List Char)
  | 0, _ => []
  | fuel + 1, s =>
    match fgets size s with
    | none => []
    | some (line, rest) => line :: read_lines size fuel rest

/-- The test `strstr(line, needle)` as a truth value: the line contains the
needle. -/
def has (line : List Char) (needle : String) : Bool :=
  (strstr line needle.toList).isSome

/-- The test `strstr(line, needle) == line`: the line begins with the needle. -/
def begins_with (line : List Char) (needle : String) : Bool :=
  strstr line needle.toList == some 0

/-- The condition of the branch that removes mounts:
`strstr(line, "mount_all") || (strstr(line, "mount ") && (strstr(line, "/data")
|| strstr(line, "/system")))`. -/
def is_mount_line (line : List Char) : Bool :=
  has line "mount_all" || (has line "mount " && (has line "/data" || has line "/system"))

/-- The placeholder statement written before the first removed line of an
action block. -/
def DUMMY_LINE : List Char := "    export DUMMY_LINE_INGORE_IT 1\n".toList

/-- The line that replaces the class of the sdcard service. -/
def CLASS_MAIN : List Char := "    class main\n".toList

/-- The loop `while((fgets(line, sizeof(line), f_in)))` of
`multirom_prep_android_mounts` over the lines `fgets` returns for one script.
The first argument is `add_dummy` (declared outside the loop over the files, so
it enters a script with the value the previous one left). The result lists what
the calls of `fputs` and `fputc` write to `f_out`, one entry per call. -/
def rewrite_lines : Bool → List (List Char) → List (List Char)
  | _, [] => []
  | add_dummy, line :: rest =>
    if has line "on " then
      line :: rewrite_lines true rest
    else if is_mount_line line then
      (if add_dummy then [DUMMY_LINE] else []) ++ ['#'] :: line :: rewrite_lines false rest
    else if begins_with line "service sdcard" then
      line :: CLASS_MAIN ::
        (match rest with
         | [] => []
         | _ :: rest' => rewrite_lines add_dummy rest')
    else
      line :: rewrite_lines add_dummy rest

/-- The rewriting of one script by `multirom_prep_android_mounts`: the script is
read with `fgets` into `char line[1024]`, the result is the content of the file
written. -/
def rewrite_rc (add_dummy : Bool) (script : List Char) : List Char :=
  (rewrite_lines add_dummy (read_lines 1024 script.length script)).flatten

/-- Whether the loop of `rewrite_lines`, run on exactly these lines, ends in the
sdcard branch with its extra `fgets` (the one that skips the next line) still to
come: a line appended to them would be discarded by that call. -/
def discard_pending : List (List Char) → Bool
  | [] => false
  | line :: rest =>
    if has line "on " then discard_pending rest
    else if is_mount_line line then discard_pending rest
    else if begins_with line "service sdcard" then
      (match rest with
       | [] => true
       | _ :: rest' => discard_pending rest')
    else discard_pending rest

/-! ## The Boot-Prepare Orchestrator: `multirom_get_rom_in_root`,
`multirom_prepare_for_boot` -/

/-- Modelled from the spec: `struct multirom_status` of `multirom.h`. The
pointers `current_rom` and `auto_boot_rom` are `none` when they are `NULL`;
`roms` and `partitions` are the NULL-terminated arrays. -/
structure multirom_status where
  is_second_boot : Int
  current_rom : Option multirom_rom
  auto_boot_rom : Option multirom_rom
  auto_boot_seconds : Int
  roms : List multirom_rom
  partitions : List usb_partition
  deriving DecidableEq, Repr

/-- Modelled from the spec: the exit-action bits of `multirom.h` (reboot,
post-boot-unmount, reboot-recovery, reboot-bootloader, shutdown,
kexec-performed), one bit each. -/
def EXIT_REBOOT : Nat := 0x01

/-- Modelled from the spec: the post-boot-unmount bit of `multirom.h`. -/
def EXIT_UMOUNT : Nat := 0x02

/-- Modelled from the spec: the reboot-recovery bit of `multirom.h`. -/
def EXIT_REBOOT_RECOVERY : Nat := 0x04

/-- Modelled from the spec: the reboot-bootloader bit of `multirom.h`. -/
def EXIT_REBOOT_BOOTLOADER : Nat := 0x08

/-- Modelled from the spec: the shutdown bit of `multirom.h`. -/
def EXIT_SHUTDOWN : Nat := 0x10

/-- Modelled from the spec: the kexec-performed bit of `multirom.h`. -/
def EXIT_KEXEC : Nat := 0x20

/-- The operand `~(EXIT_UMOUNT)` as a 32-bit pattern. -/
def NOT_EXIT_UMOUNT : Nat := 0xFFFFFFFF ^^^ EXIT_UMOUNT

/-- The function `multirom_get_rom_in_root`: the first ROM of the list with
`is_in_root` set, `none` for `NULL`. -/
def multirom_get_rom_in_root (s : multirom_status) : Option multirom_rom :=
  s.roms.find? fun r => r.is_in_root ≠ 0

/-- The calls `multirom_prepare_for_boot` makes that act on the system, and the
store to `to_boot->partition->keep_mounted`. -/
inductive Call where
  | load_kexec (rom : multirom_rom)
  | move_out_of_root (rom : multirom_rom)
  | move_to_root (rom : multirom_rom)
  | prep_android_mounts (rom : multirom_rom)
  | create_media_link
  | stat_init_rc
  | set_keep_mounted (p : usb_partition)
  deriving DecidableEq, Repr

/-- What the callees of `multirom_prepare_for_boot` return when it calls them:
`load_kexec rom` is the result of `multirom_load_kexec(rom)` (`none` when it does
not return), and so on; `stat_init_rc` is the result of `stat("/init.rc", &info)`
at the time of the call. Each is called at most once in a run. -/
structure PrepareEnv where
  load_kexec : multirom_rom → Option Int
  move_out_of_root : multirom_rom → Int
  move_to_root : multirom_rom → Int
  prep_android_mounts : multirom_rom → Int
  create_media_link : Int
  stat_init_rc : Int

/-- Result of `multirom_prepare_for_boot`: the return value (`none` when the
function does not return: a callee did not, or `s->current_rom` is `NULL` where
it is dereferenced) and the calls made, in order. -/
structure PrepareResult where
  ret : Option Int
  calls : List Call
  deriving DecidableEq, Repr

/-- The condition `exit & (EXIT_REBOOT | EXIT_KEXEC)` as a truth value. -/
def leaves_kernel (exit : Nat) : Bool :=
  exit &&& (EXIT_REBOOT ||| EXIT_KEXEC) ≠ 0

/-- The `switch(type_to)` of `multirom_prepare_for_boot`, entered with the mask
`exit` and the calls made so far. -/
def prepare_type_finalize (w : PrepareEnv) (to_boot : multirom_rom) (exit : Nat)
    (calls : List Call) : PrepareResult :=
  match to_boot.type with
  | ROM_DEFAULT => { ret := some exit, calls := calls }
  | ROM_UBUNTU_INTERNAL =>
    if !leaves_kernel exit then
      if w.stat_init_rc ≥ 0 then { ret := some (-1), calls := calls ++ [Call.stat_init_rc] }
      else { ret := some exit, calls := calls ++ [Call.stat_init_rc] }
    else { ret := some exit, calls := calls }
  | ROM_ANDROID_USB_IMG | ROM_ANDROID_USB_DIR | ROM_ANDROID_INTERNAL =>
    let exit1 := if !leaves_kernel exit then exit &&& NOT_EXIT_UMOUNT else exit
    let calls1 := calls ++ [Call.prep_android_mounts to_boot]
    if w.prep_android_mounts to_boot = -1 then { ret := some (-1), calls := calls1 }
    else
      let calls2 := calls1 ++ [Call.create_media_link]
      if w.create_media_link = -1 then { ret := some (-1), calls := calls2 }
      else
        let calls3 := calls2 ++ (to_boot.partition.map Call.set_keep_mounted).toList
        if !leaves_kernel exit1 then
          if w.stat_init_rc < 0 then
            { ret := some (-1), calls := calls3 ++ [Call.stat_init_rc] }
          else { ret := some exit1, calls := calls3 ++ [Call.stat_init_rc] }
        else { ret := some exit1, calls := calls3 }
  | _ => { ret := some (-1), calls := calls }

/-- The condition of the root swap: `!to_boot->is_in_root &&
(to_boot->type == ROM_UBUNTU_INTERNAL || to_boot->type == ROM_DEFAULT)`. -/
def needs_root_swap (to_boot : multirom_rom) : Bool :=
  to_boot.is_in_root = 0 &&
    (to_boot.type = ROM_UBUNTU_INTERNAL || to_boot.type = ROM_DEFAULT)

/-- The part of `multirom_prepare_for_boot` from the read of
`s->current_rom->type` to the root swap, entered with the mask `exit` and the
calls made so far. -/
def prepare_root_swap (w : PrepareEnv) (s : multirom_status) (to_boot : multirom_rom)
    (exit : Nat) (calls : List Call) : PrepareResult :=
  match s.current_rom with
  | none => { ret := none, calls := calls }
  | some _ =>
    if needs_root_swap to_boot then
      match multirom_get_rom_in_root s with
      | none => { ret := some (-1), calls := calls }
      | some in_root =>
        if w.move_out_of_root in_root = -1 then
          { ret := some (-1), calls := calls ++ [Call.move_out_of_root in_root] }
        else if w.move_to_root to_boot = -1 then
          { ret := some (-1),
            calls := calls ++ [Call.move_out_of_root in_root, Call.move_to_root to_boot] }
        else
          prepare_type_finalize w to_boot exit
            (calls ++ [Call.move_out_of_root in_root, Call.move_to_root to_boot])
    else prepare_type_finalize w to_boot exit calls

/-- The condition under which `multirom_prepare_for_boot` calls the Kexec
Loader: `to_boot->has_bootimg && to_boot->type != ROM_DEFAULT &&
s->is_second_boot == 0`. -/
def wants_kexec (s : multirom_status) (to_boot : multirom_rom) : Bool :=
  to_boot.has_bootimg ≠ 0 && to_boot.type ≠ ROM_DEFAULT && s.is_second_boot = 0

/-- The function `multirom_prepare_for_boot`. A returned mask is the `int`
`exit`, a failure the `int` -1. -/
def multirom_prepare_for_boot (w : PrepareEnv) (s : multirom_status)
    (to_boot : multirom_rom) : PrepareResult :=
  if wants_kexec s to_boot then
    match w.load_kexec to_boot with
    | none => { ret := none, calls := [Call.load_kexec to_boot] }
    | some r =>
      if r ≠ 0 then { ret := some (-1), calls := [Call.load_kexec to_boot] }
      else prepare_root_swap w s to_boot (EXIT_UMOUNT ||| EXIT_KEXEC) [Call.load_kexec to_boot]
  else prepare_root_swap w s to_boot EXIT_UMOUNT []

/-- The calls of a run that move the root: `multirom_move_out_of_root` and
`multirom_move_to_root`. -/
def moves (calls : List Call) : List Call :=
  calls.filter fun c =>
    match c with
    | Call.move_out_of_root _ => true
    | Call.move_to_root _ => true
    | _ => false

/-- The calls of a run to the Kexec Loader. -/
def kexec_loads (calls : List Call) : List Call :=
  calls.filter fun c =>
    match c with
    | Call.load_kexec _ => true
    | _ => false

/-- The calls of a run that set up Android mounts. -/
def android_mounts (calls : List Call) : List Call :=
  calls.filter fun c =>
    match c with
    | Call.prep_android_mounts _ => true
    | Call.create_media_link => true
    | _ => false

/-- The three Android types. -/
def is_android (t : RomType) : Bool :=
  t = ROM_ANDROID_INTERNAL || t = ROM_ANDROID_USB_DIR || t = ROM_ANDROID_USB_IMG

/-- The path `base_path/f` passes `access(path, R_OK)`. -/
def present (access : String → Bool) (rom : multirom_rom) (f : String) : Prop :=
  access (rom.base_path ++ "/" ++ f) = true

instance (access : String → Bool) (rom : multirom_rom) (f : String) :
    Decidable (present access rom f) :=
  inferInstanceAs (Decidable (access (rom.base_path ++ "/" ++ f) = true))

/-- The local ROM named "Internal". -/
def c1_internal : multirom_rom :=
  { id := 0, name := "Internal", base_path := "/realdata/media/multirom/roms/Internal",
    type := ROM_UNKNOWN, is_in_root := 1, has_bootimg := 1, partition := none }

/-- A partition of a USB drive. -/
def sda1 : usb_partition :=
  { name := "sda1", uuid := some "0a1b", fs := some "ext4", mount_path := "/mnt/sda1",
    keep_mounted := 0 }

/-- A ROM on the USB partition `sda1`. -/
def c1_usb : multirom_rom :=
  { id := 1, name := "cm", base_path := "/mnt/sda1/multirom/cm",
    type := ROM_UNKNOWN, is_in_root := 0, has_bootimg := 0, partition := some sda1 }

/-- A ROM in the local roms directory, not the Default one. -/
def c2_local : multirom_rom :=
  { id := 2, name := "cm", base_path := "/r/cm",
    type := ROM_UNKNOWN, is_in_root := 0, has_bootimg := 1, partition := none }

/-- A ROM with the same storage root on the USB partition `sda1`. -/
def c2_usb : multirom_rom :=
  { id := 3, name := "cm", base_path := "/r/cm",
    type := ROM_UNKNOWN, is_in_root := 0, has_bootimg := 1, partition := some sda1 }

/-- A storage root `/r/cm` that holds exactly the four image files. -/
def c2_access (path : String) : Bool :=
  path == "/r/cm/system.img" || path == "/r/cm/data.img" || path == "/r/cm/cache.img"
    || path == "/r/cm/root.img"

/-- A boot image of `2 ^ 32 + 1` bytes: `A` (of the magic) at offset 0, the byte
7 at offset `2 ^ 32`, zero elsewhere. -/
def c3_file : FILE :=
  { size := 2 ^ 32 + 1, byte := fun i => if i = 2 ^ 32 then 7 else if i = 0 then 65 else 0,
    pos := 0 }

/-- A header with a kernel of one byte, a ramdisk of one byte and a page size of
`2 ^ 31`. -/
def c3_hdr : boot_img_hdr :=
  { kernel_size := 1, ramdisk_size := 1, page_size := 2 ^ 31, cmdline := "" }

/-- A system with a 64-bit `long` on which every file opens, and `boot.img` is
`c3_file` with header `c3_hdr`. -/
def c3_env : BootEnv :=
  { long_bits := 64, sizeof_boot_img_hdr := 608, fopen_r := fun _ => some c3_file,
    read_hdr := fun _ => c3_hdr, fopen_w := fun _ => true, uninit := fun _ _ => 170,
    proc_cmdline := some "console=tty1" }

/-- A boot image of 14 bytes whose byte at offset `i` is `i`. -/
def small_file : FILE := { size := 14, byte := fun i => i, pos := 0 }

/-- A header with a kernel of three bytes, a ramdisk of two bytes and a page
size of four. -/
def small_hdr : boot_img_hdr :=
  { kernel_size := 3, ramdisk_size := 2, page_size := 4, cmdline := "quiet" }

/-- A system with a 32-bit `long` on which every file opens, and `boot.img` is
`small_file` with header `small_hdr`. -/
def small_env : BootEnv :=
  { long_bits := 32, sizeof_boot_img_hdr := 608, fopen_r := fun _ => some small_file,
    read_hdr := fun _ => small_hdr, fopen_w := fun _ => true, uninit := fun _ _ => 170,
    proc_cmdline := some "console=tty1" }

/-- A truncated boot image: 1030 bytes, the byte at offset `i` being `i % 256`. -/
def c4_file : FILE := { size := 1030, byte := fun i => i % 256, pos := 0 }

/-- A header that declares a kernel of 10 bytes, a ramdisk of 10 bytes and
pages of 1024 bytes: the kernel would end at offset 1034 and the ramdisk at
offset 2058. -/
def c4_hdr : boot_img_hdr :=
  { kernel_size := 10, ramdisk_size := 10, page_size := 1024, cmdline := "quiet" }

/-- A system on which `boot.img` is the truncated `c4_file` with the header
`c4_hdr`, every file opens, fresh buffers hold the byte 170 and the kexec tool
exits 0. -/
def c4_env : KexecEnv :=
  { long_bits := 32, sizeof_boot_img_hdr := 608, fopen_r := fun _ => some c4_file,
    read_hdr := fun _ => c4_hdr, fopen_w := fun _ => true, uninit := fun _ _ => 170,
    proc_cmdline := some "console=tty1",
    kexec_path := "/realdata/media/multirom/kexec",
    busybox_path := "/realdata/media/multirom/busybox",
    opendir := fun _ => none, run_command := fun _ => 0 }

/-- An Android ROM of the local roms directory with a boot image. -/
def c4_rom : multirom_rom :=
  { id := 4, name := "cm", base_path := "/realdata/media/multirom/roms/cm",
    type := ROM_ANDROID_INTERNAL, is_in_root := 0, has_bootimg := 1, partition := none }

/-- A script in which the action `on fs` follows the declaration of the sdcard
service and is followed by a `mount_all` line. -/
def c5_script : List Char :=
  "service sdcard /system/bin/sdcard\non fs\n    mount_all /fstab.grouper\n".toList

/-- A script whose action `on fs` has one command, a mount of `/system` whose
device path holds the characters `on` followed by a blank. -/
def c6_script : List Char :=
  "on fs\n    mount ext4 /dev/block/by-name/partition /system ro\n".toList

/-- A script with an action that mounts nothing and a service other than
sdcard. -/
def c7_script : List Char :=
  "on boot\n    setprop a b\nservice adbd /sbin/adbd\n    class core\n".toList

/-- The callees of `multirom_prepare_for_boot` on the system `c4_env`: the Kexec
Loader is `multirom_load_kexec`, everything else succeeds. -/
def c4_prepare_env : PrepareEnv :=
  { load_kexec := fun rom => (multirom_load_kexec c4_env rom).ret,
    move_out_of_root := fun _ => 0, move_to_root := fun _ => 0,
    prep_android_mounts := fun _ => 0, create_media_link := 0, stat_init_rc := 0 }

/-- An Ubuntu ROM of the local roms directory with a boot image, not in root. -/
def ubuntu_rom : multirom_rom :=
  { id := 5, name := "ubuntu", base_path := "/realdata/media/multirom/roms/ubuntu",
    type := ROM_UBUNTU_INTERNAL, is_in_root := 0, has_bootimg := 1, partition := none }

/-- The Default ROM, in root. -/
def internal_rom : multirom_rom :=
  { id := 0, name := "Internal", base_path := "/realdata/media/multirom/roms/Internal",
    type := ROM_DEFAULT, is_in_root := 1, has_bootimg := 1, partition := none }

/-- A first boot with the registry `Internal`, `cm`, `ubuntu`, the current ROM
being `Internal`. -/
def first_boot : multirom_status :=
  { is_second_boot := 0, current_rom := some internal_rom, auto_boot_rom := none,
    auto_boot_seconds := 5, roms := [internal_rom, c4_rom, ubuntu_rom], partitions := [] }

/-- A system on which the Kexec Loader fails and everything else succeeds. -/
def kexec_fails : PrepareEnv :=
  { load_kexec := fun _ => some (-1), move_out_of_root := fun _ => 0,
    move_to_root := fun _ => 0, prep_android_mounts := fun _ => 0,
    create_media_link := 0, stat_init_rc := 0 }

/-- A system on which every callee succeeds and `/init.rc` exists. -/
def all_ok : PrepareEnv :=
  { load_kexec := fun _ => some 0, move_out_of_root := fun _ => 0,
    move_to_root := fun _ => 0, prep_android_mounts := fun _ => 0,
    create_media_link := 0, stat_init_rc := 0 }

/-! ## The Root Swap Engine: `multirom_move_out_of_root`, `multirom_move_to_root` -/

/-- What the Root Swap Engine gets from the system, on top of `KexecEnv`:
`multirom_dir` is the global set by `multirom_find_base_dir`. -/
structure RootEnv extends KexecEnv where
  multirom_dir : String

/-- The macro `IN_ROOT`. -/
def IN_ROOT : String := "is_in_root"

/-- The test `dr->d_name[0] == '.' && (dr->d_name[1] == '.' || dr->d_name[1] == 0)`
of the two move loops. -/
def is_dot_entry (d_name : String) : Bool :=
  match d_name.toList with
  | ['.'] => true
  | '.' :: '.' :: _ => true
  | _ => false

/-- The loop `while((dr = readdir(d)))` of `multirom_move_out_of_root` and
`multirom_move_to_root` over the directory entries: `src_of d_name` is the string
put into `cmd[2]`, `dst` is `cmd[3]`. The result is 0 when the loop ran to the
end and -1 when a move exited with a status other than 0, with the commands
run, in order. -/
def move_loop (w : RootEnv) (src_of : String → String) (dst : String) :
    List String → Int × List (List String)
  | [] => (0, [])
  | d_name :: rest =>
    if is_dot_entry d_name then move_loop w src_of dst rest
    else if d_name = "media" then move_loop w src_of dst rest
    else if w.run_command [w.busybox_path, "mv", src_of d_name, dst] ≠ 0 then
      (-1, [[w.busybox_path, "mv", src_of d_name, dst]])
    else
      ((move_loop w src_of dst rest).1,
        [w.busybox_path, "mv", src_of d_name, dst] :: (move_loop w src_of dst rest).2)

/-- Result of `multirom_move_out_of_root` and `multirom_move_to_root`: the return
value, the record `*rom` after the call, the directories passed to `mkdir`, the
external commands run, the files passed to `unlink` and the files created by
`fopen(path, "w")`. -/
structure MoveResult where
  ret : Int
  rom : multirom_rom
  mkdirs : List String
  cmds : List (List String)
  unlinked : List String
  created : List String
  deriving DecidableEq, Repr

/-- The path of the in-root marker file both functions build:
`multirom_dir/roms/<name>/is_in_root`. -/
def marker_path (w : RootEnv) (rom : multirom_rom) : String :=
  w.multirom_dir ++ "/roms/" ++ rom.name ++ "/" ++ IN_ROOT

/-- The function `multirom_move_out_of_root`. It does not store to `*rom`. -/
def multirom_move_out_of_root (w : RootEnv) (rom : multirom_rom) : MoveResult :=
  let path_to := w.multirom_dir ++ "/roms/" ++ rom.name ++ "/root/"
  match w.opendir REALDATA with
  | none =>
    { ret := -1, rom := rom, mkdirs := [path_to], cmds := [], unlinked := [], created := [] }
  | some entries =>
    let r := move_loop w (fun d_name => REALDATA ++ "/" ++ d_name) path_to entries
    if r.1 ≠ 0 then
      { ret := -1, rom := rom, mkdirs := [path_to], cmds := r.2, unlinked := [], created := [] }
    else
      { ret := 0, rom := rom, mkdirs := [path_to], cmds := r.2,
        unlinked := [marker_path w rom], created := [] }

/-- The function `multirom_move_to_root`. It does not store to `*rom`; the
marker is created when `fopen(path_from, "w")` succeeds, and the return value is
0 either way. -/
def multirom_move_to_root (w : RootEnv) (rom : multirom_rom) : MoveResult :=
  let path_from := w.multirom_dir ++ "/roms/" ++ rom.name ++ "/root/"
  match w.opendir path_from with
  | none => { ret := -1, rom := rom, mkdirs := [], cmds := [], unlinked := [], created := [] }
  | some entries =>
    let r := move_loop w (fun d_name => path_from ++ d_name) "/realdata/" entries
    if r.1 ≠ 0 then
      { ret := -1, rom := rom, mkdirs := [], cmds := r.2, unlinked := [], created := [] }
    else
      { ret := 0, rom := rom, mkdirs := [], cmds := r.2, unlinked := [],
        created := if w.fopen_w (marker_path w rom) then [marker_path w rom] else [] }

/-- The callees of `multirom_prepare_for_boot` on the system `w`: the Kexec
Loader and the two halves of the root swap are the functions of this file; the
results of `multirom_prep_android_mounts`, `multirom_create_media_link` and
`stat("/init.rc")` are given. -/
def prepare_env (w : RootEnv) (prep_android_mounts : multirom_rom → Int)
    (create_media_link stat_init_rc : Int) : PrepareEnv :=
  { load_kexec := fun rom => (multirom_load_kexec w.toKexecEnv rom).ret,
    move_out_of_root := fun rom => (multirom_move_out_of_root w rom).ret,
    move_to_root := fun rom => (multirom_move_to_root w rom).ret,
    prep_android_mounts := prep_android_mounts,
    create_media_link := create_media_link,
    stat_init_rc := stat_init_rc }

/-- The Android ROM `CM11` of the local roms directory: directory layout, with a
boot image, not in root. -/
def cm11_rom : multirom_rom :=
  { id := 1, name := "CM11", base_path := "/realdata/media/multirom/roms/CM11",
    type := ROM_ANDROID_INTERNAL, is_in_root := 0, has_bootimg := 1, partition := none }

/-- A first boot with the registry `Internal` (Default, in root), `CM11`. -/
def cm11_registry : multirom_status :=
  { is_second_boot := 0, current_rom := some internal_rom, auto_boot_rom := none,
    auto_boot_seconds := 5, roms := [internal_rom, cm11_rom], partitions := [] }

/-- A system on which every boot image is `small_file` with the header
`small_hdr`, every file opens, every external command exits with 0, the live
root holds `system` and `media`, and the `root` folder of a ROM holds `home`. -/
def c11_env : RootEnv :=
  { long_bits := 32, sizeof_boot_img_hdr := 608, fopen_r := fun _ => some small_file,
    read_hdr := fun _ => small_hdr, fopen_w := fun _ => true, uninit := fun _ _ => 170,
    proc_cmdline := some "console=tty1",
    kexec_path := "/realdata/media/multirom/kexec",
    busybox_path := "/realdata/media/multirom/busybox",
    opendir := fun path => if path = "/realdata" then some [".", "..", "media", "system"]
      else some [".", "..", "home"],
    run_command := fun _ => 0,
    multirom_dir := "/realdata/media/multirom" }

/-- An Ubuntu ROM with a boot image on the USB partition `sda1`. -/
def usb_ubuntu_rom : multirom_rom :=
  { id := 6, name := "raring", base_path := "/mnt/sda1/multirom/raring",
    type := ROM_UBUNTU_USB_DIR, is_in_root := 0, has_bootimg := 1, partition := some sda1 }

/-- A second boot (`is_second_boot = 1`) whose current ROM is the Ubuntu ROM on
the USB partition. -/
def second_boot : multirom_status :=
  { is_second_boot := 1, current_rom := some usb_ubuntu_rom, auto_boot_rom := none,
    auto_boot_seconds := 5, roms := [internal_rom, usb_ubuntu_rom], partitions := [sda1] }

/-- The condition `multirom_move_out_of_root(in_root) == -1 ||
multirom_move_to_root(to_boot) == -1` of `multirom_prepare_for_boot`, with what it
leaves behind: `ret` is -1 when the condition holds (the caller returns -1) and
0 otherwise; `status` is `*s` afterwards, every ROM record being replaced by the
record its callee left; `unlinked` and `created` are the marker files removed
and created; `cmds` are the external commands run. -/
structure SwapResult where
  ret : Int
  status : multirom_status
  unlinked : List String
  created : List String
  cmds : List (List String)
  deriving DecidableEq, Repr

/-- The root swap of `multirom_prepare_for_boot`; see `SwapResult`. -/
def root_swap (w : RootEnv) (s : multirom_status) (in_root to_boot : multirom_rom) :
    SwapResult :=
  let out := multirom_move_out_of_root w in_root
  if out.ret = -1 then
    { ret := -1,
      status := { s with roms := s.roms.map fun r => if r = in_root then out.rom else r },
      unlinked := out.unlinked, created := out.created, cmds := out.cmds }
  else
    let back := multirom_move_to_root w to_boot
    { ret := if back.ret = -1 then -1 else 0,
      status := { s with roms := s.roms.map fun r =>
        if r = in_root then out.rom else if r = to_boot then back.rom else r },
      unlinked := out.unlinked ++ back.unlinked, created := out.created ++ back.created,
      cmds := out.cmds ++ back.cmds }

/-- A system like `c11_env` whose live root also holds an entry named `..cache`
and an entry `app`. -/
def c18_env : RootEnv :=
  { c11_env with
    opendir := fun path =>
      if path = "/realdata" then some [".", "..", "..cache", "media", "system", "app"]
      else some [".", "..", "home"] }

/-! ## The ROM Registry: `multirom_default_status`, `multirom_find_usb_roms`,
`multirom_get_rom` -/

/-- The macro `T_FOLDER`. -/
def T_FOLDER : Nat := 4

/-- The macro `MAX_ROM_NAME_LEN`. -/
def MAX_ROM_NAME_LEN : Nat := 26

/-- The macro `BOOT_BLK`. -/
def BOOT_BLK : String := "/dev/block/mmcblk0p2"

/-- What the ROM Registry gets from the system, on top of `RootEnv`. A directory
is opened at most once by each function, and `opendir path` is its content at
that time (for the roms directory: after `multirom_import_internal` ran).
* `d_type path`: the `d_type` that `readdir` reports for the entry at `path`;
* `access path`: whether `access(path, R_OK)` is 0;
* `stat_ok path`: whether `stat(path, &info)` is not negative;
* `strcoll a b`: the result of `strcoll(a, b)` in the locale of the process. -/
structure ScanEnv extends RootEnv where
  d_type : String → Nat
  access : String → Bool
  stat_ok : String → Bool
  strcoll : String → String → Int

/-- The function `multirom_dump_boot`: the exit status of the `dd` command. -/
def multirom_dump_boot (w : ScanEnv) (dest : String) : Int :=
  w.run_command [w.busybox_path, "dd", "if=" ++ BOOT_BLK, "of=" ++ dest]

/-- The function `multirom_import_internal`: it makes the folders
`multirom_dir`, `multirom_dir/roms`, `multirom_dir/roms/Internal`, dumps the boot
partition to `boot.img` there, creates the marker `is_in_root`, and returns the
result of the dump. -/
def multirom_import_internal (w : ScanEnv) : Int :=
  multirom_dump_boot w (w.multirom_dir ++ "/roms/" ++ INTERNAL_ROM_NAME ++ "/boot.img")

/-- The function `multirom_get_rom`: the first ROM of the list whose name is
`name` (`strcmp` is 0), `none` for `NULL`. -/
def multirom_get_rom (s : multirom_status) (name : String) : Option multirom_rom :=
  s.roms.find? fun r => r.name == name

/-- The function `compare_rom_names`. -/
def compare_rom_names (w : ScanEnv) (a b : multirom_rom) : Int :=
  w.strcoll a.name b.name

/-- The order `qsort` sorts by: `compare_rom_names(a, b) <= 0`. -/
def rom_le (w : ScanEnv) (a b : multirom_rom) : Prop :=
  compare_rom_names w a b ≤ 0

instance (w : ScanEnv) : DecidableRel (rom_le w) :=
  fun a b => inferInstanceAs (Decidable (compare_rom_names w a b ≤ 0))

/-- The call `qsort(add_roms, ..., compare_rom_names)`, modelled by insertion
sort: the C library leaves the algorithm and the order of equal elements open. -/
def qsort_roms (w : ScanEnv) (add_roms : List multirom_rom) : List multirom_rom :=
  List.insertionSort (rom_le w) add_roms

/-- The ROM record a scan builds for the entry `d_name` of the directory `dir`:
the fields are set in the order of the source, the type from
`multirom_get_rom_type`, `is_in_root` and `has_bootimg` from `access` on the
marker and on `boot.img`. -/
def scan_rom (w : ScanEnv) (dir : String) (partition : Option usb_partition) (id : Int)
    (d_name : String) : multirom_rom :=
  let rom0 : multirom_rom :=
    { id := id, name := d_name, base_path := dir ++ "/" ++ d_name, type := ROM_DEFAULT,
      is_in_root := 0, has_bootimg := 0, partition := partition }
  { rom0 with
    type := multirom_get_rom_type w.access rom0,
    is_in_root := if w.access (rom0.base_path ++ "/" ++ IN_ROOT) then 1 else 0,
    has_bootimg := if w.access (rom0.base_path ++ "/boot.img") then 1 else 0 }

/-- Whether the loop of `multirom_default_status` makes a ROM of the entry: its
name does not start with a dot, it is a folder, and its name has at most
`MAX_ROM_NAME_LEN` bytes. -/
def local_entry_ok (w : ScanEnv) (roms_path d_name : String) : Bool :=
  d_name.toList.head? ≠ some '.' && w.d_type (roms_path ++ "/" ++ d_name) = T_FOLDER
    && d_name.utf8ByteSize ≤ MAX_ROM_NAME_LEN

/-- The loop `while((dr = readdir(d)))` of `multirom_default_status`: the ROMs
added to `add_roms`, in order, and the value of the id counter of
`multirom_generate_rom_id` afterwards. -/
def scan_local (w : ScanEnv) (roms_path : String) : Int → List String → List multirom_rom × Int
  | id, [] => ([], id)
  | id, d_name :: rest =>
    if local_entry_ok w roms_path d_name then
      (scan_rom w roms_path none id d_name :: (scan_local w roms_path (id + 1) rest).1,
        (scan_local w roms_path (id + 1) rest).2)
    else scan_local w roms_path id rest

/-- Result of `multirom_default_status`: the return value, the status
afterwards and the id counter afterwards. -/
structure StatusResult where
  ret : Int
  status : multirom_status
  next_id : Int
  deriving DecidableEq, Repr

/-- The function `multirom_default_status`; `next_id` is the id counter of
`multirom_generate_rom_id`. -/
def multirom_default_status (w : ScanEnv) (s : multirom_status) (next_id : Int) :
    StatusResult :=
  let s0 := { s with is_second_boot := 0, current_rom := none, roms := [] }
  let internal_ok :=
    match w.opendir (w.multirom_dir ++ "/roms/" ++ INTERNAL_ROM_NAME) with
    | none => decide (multirom_import_internal w ≠ -1)
    | some _ => true
  if !internal_ok then { ret := -1, status := s0, next_id := next_id }
  else
    match w.opendir (w.multirom_dir ++ "/roms") with
    | none => { ret := -1, status := s0, next_id := next_id }
    | some entries =>
      let scan := scan_local w (w.multirom_dir ++ "/roms") next_id entries
      let s1 := { s0 with roms := s0.roms ++ qsort_roms w scan.1 }
      match multirom_get_rom s1 INTERNAL_ROM_NAME with
      | none => { ret := -1, status := s1, next_id := scan.2 }
      | some rom => { ret := 0, status := { s1 with current_rom := some rom }, next_id := scan.2 }

/-- Modelled from the spec: the macro test `M(type) & MASK_USB_ROMS` of
`multirom.h`, true for the types of removable-media ROMs. -/
def is_usb_type (t : RomType) : Bool :=
  t = ROM_ANDROID_USB_IMG || t = ROM_ANDROID_USB_DIR || t = ROM_UBUNTU_USB_IMG
    || t = ROM_UBUNTU_USB_DIR

/-- The loop `while((dr = readdir(d)) != NULL)` of `multirom_find_usb_roms` for
one partition: every entry whose name does not start with a dot gives a ROM. -/
def scan_usb_dir (w : ScanEnv) (p : usb_partition) : Int → List String → List multirom_rom × Int
  | id, [] => ([], id)
  | id, d_name :: rest =>
    if d_name.toList.head? = some '.' then scan_usb_dir w p id rest
    else
      (scan_rom w (p.mount_path ++ "/multirom") (some p) id d_name
          :: (scan_usb_dir w p (id + 1) rest).1,
        (scan_usb_dir w p (id + 1) rest).2)

/-- The loop of `multirom_find_usb_roms` over the partitions: a partition whose
`multirom` folder fails `stat` or `opendir` is passed over. -/
def scan_usb (w : ScanEnv) : Int → List usb_partition → List multirom_rom × Int
  | id, [] => ([], id)
  | id, p :: rest =>
    if !w.stat_ok (p.mount_path ++ "/multirom") then scan_usb w id rest
    else
      match w.opendir (p.mount_path ++ "/multirom") with
      | none => scan_usb w id rest
      | some entries =>
        ((scan_usb_dir w p id entries).1
            ++ (scan_usb w (scan_usb_dir w p id entries).2 rest).1,
          (scan_usb w (scan_usb_dir w p id entries).2 rest).2)

/-- The function `multirom_find_usb_roms`: the status afterwards and the id
counter afterwards. The first loop drops the ROMs of a USB type, the new ROMs
are sorted among themselves and added at the end of the list. -/
def multirom_find_usb_roms (w : ScanEnv) (s : multirom_status) (next_id : Int) :
    multirom_status × Int :=
  let kept := s.roms.filter fun r => !is_usb_type r.type
  let scan := scan_usb w next_id s.partitions
  ({ s with roms := kept ++ qsort_roms w scan.1 }, scan.2)

/-- The names `multirom_find_usb_roms` makes ROMs of: for every partition whose
`multirom` folder passes `stat` and `opendir`, the entries whose name does not
start with a dot. -/
def usb_entry_names (w : ScanEnv) : List usb_partition → List String
  | [] => []
  | p :: rest =>
    if !w.stat_ok (p.mount_path ++ "/multirom") then usb_entry_names w rest
    else
      match w.opendir (p.mount_path ++ "/multirom") with
      | none => usb_entry_names w rest
      | some entries =>
        entries.filter (fun d_name => d_name.toList.head? ≠ some '.') ++ usb_entry_names w rest

/-- The sign of `strcmp` on two strings: the first differing byte decides, a
proper prefix comes first. -/
def strcmp_sign : List Char → List Char → Int
  | [], [] => 0
  | [], _ :: _ => -1
  | _ :: _, [] => 1
  | a :: s, b :: t =>
    if a.toNat < b.toNat then -1 else if b.toNat < a.toNat then 1 else strcmp_sign s t

/-- The result of `strcoll` in the C locale, where it is `strcmp`. -/
def c_strcoll (a b : String) : Int :=
  strcmp_sign a.toList b.toList

/-- A system with the local ROM folders `zeta`, `Internal`, `cm` and, on the
partition `sda1`, the ROM folders `cm` and `alpha`. Only `Internal` has the
in-root marker, every ROM has the folders `system`, `data`, `cache`. -/
def registry_env : ScanEnv :=
  { toRootEnv :=
      { c11_env with
        opendir := fun path =>
          if path = "/realdata/media/multirom/roms/Internal" then some [".", ".."]
          else if path = "/realdata/media/multirom/roms" then
            some [".", "..", "zeta", "Internal", "cm"]
          else if path = "/mnt/sda1/multirom" then some [".", "..", "cm", "alpha"]
          else none },
    d_type := fun _ => 4,
    access := fun path =>
      path ∈ ["/realdata/media/multirom/roms/Internal/is_in_root",
        "/realdata/media/multirom/roms/zeta/system", "/realdata/media/multirom/roms/zeta/data",
        "/realdata/media/multirom/roms/zeta/cache",
        "/realdata/media/multirom/roms/cm/system", "/realdata/media/multirom/roms/cm/data",
        "/realdata/media/multirom/roms/cm/cache",
        "/mnt/sda1/multirom/cm/system", "/mnt/sda1/multirom/cm/data",
        "/mnt/sda1/multirom/cm/cache",
        "/mnt/sda1/multirom/alpha/system", "/mnt/sda1/multirom/alpha/data",
        "/mnt/sda1/multirom/alpha/cache"],
    stat_ok := fun _ => true,
    strcoll := c_strcoll }

/-- A status with no ROM yet and the partition `sda1` mounted. -/
def usb_plugged : multirom_status :=
  { is_second_boot := 0, current_rom := none, auto_boot_rom := none,
    auto_boot_seconds := 5, roms := [], partitions := [sda1] }

/-- The status after `multirom_default_status` and one `multirom_find_usb_roms`
on the system `registry_env`. -/
def registry_after_usb : multirom_status :=
  (multirom_find_usb_roms registry_env
    (multirom_default_status registry_env usb_plugged 0).status
    (multirom_default_status registry_env usb_plugged 0).next_id).1

/-- A system without the folder of the Internal ROM on which the `dd` of
`multirom_dump_boot` fails with exit status 1 (wait status 256); the folders
and the marker that `multirom_import_internal` makes are there afterwards, the
boot image is not. -/
def c14_env : ScanEnv :=
  { toRootEnv :=
      { c11_env with
        opendir := fun path =>
          if path = "/realdata/media/multirom/roms" then some [".", "..", "Internal"]
          else none,
        run_command := fun _ => 256 },
    d_type := fun _ => 4,
    access := fun path => path = "/realdata/media/multirom/roms/Internal/is_in_root",
    stat_ok := fun _ => true,
    strcoll := c_strcoll }

/-! ## The Partition Monitor: `multirom_update_partitions`, `multirom_mount_usb` -/

/-- The call `strchr(s, c)`: the offset of the first `c` in `s`, `none` for
`NULL`. -/
def strchr : List Char → Char → Option Nat
  | [], _ => none
  | x :: t, c => if x = c then some 0 else (strchr t c).map (· + 1)

/-- The call `strrchr(s, c)`: the offset of the last `c` in `s`, `none` for
`NULL`. -/
def strrchr : List Char → Char → Option Nat
  | [], _ => none
  | x :: t, c =>
    match strrchr t c with
    | some i => some (i + 1)
    | none => if x = c then some 0 else none

/-- The pieces of a text between its newlines, empty pieces included. -/
def split_newlines : List Char → List (List Char)
  | [] => [[]]
  | c :: t =>
    if c = '\n' then [] :: split_newlines t
    else
      match split_newlines t with
      | [] => [[c]]
      | h :: r => (c :: h) :: r

/-- The tokens the calls `strtok(res, "\n")`, `strtok(NULL, "\n")`, ... return:
the non-empty pieces between newlines, in order. -/
def strtok_lines (res : List Char) : List (List Char) :=
  (split_newlines res).filter fun l => !l.isEmpty

/-- What the Partition Monitor gets from the system.
* `busybox_path`: the global set by `multirom_find_base_dir`;
* `run_get_stdout argv`: the output of the command, `none` for `NULL`;
* `mkdir_ok path`: whether `mkdir(path, 0777)` is 0 or fails with `EEXIST`;
* `mount_ok src path fs`: whether `mount(src, path, fs, MS_NOATIME, "")` is not
  negative (`fs` is `none` for a `NULL` type). -/
structure PartEnv where
  busybox_path : String
  run_get_stdout : List String → Option (List Char)
  mkdir_ok : String → Bool
  mount_ok : String → String → Option String → Bool

/-- The value of a `KEY="` field of a line, as `multirom_update_partitions`
reads it: `some none` when the key is not in the line (the pointer stays
`NULL`), `some (some v)` for the text between the key and the next quote, and
`none` where the C code is undefined (no closing quote: `strchr` gives `NULL`). -/
def quoted_field (p : List Char) (key : String) : Option (Option String) :=
  match strstr p key.toList with
  | none => some none
  | some i =>
    let t := p.drop (i + key.toList.length)
    match strchr t '"' with
    | none => none
    | some j => some (some (String.mk (t.take j)))

/-- The partition `multirom_update_partitions` builds from a line `p` before it
is mounted: the name is what follows the last `/` of the text before the first
`:`, the UUID and the type are the `UUID="` and `TYPE="` fields. The result is
`none` where the C code is undefined (no `:` in the line, no `/` before it, or a
field without closing quote). -/
def parse_partition (p : List Char) : Option usb_partition :=
  match strchr p ':' with
  | none => none
  | some colon =>
    let t := p.take colon
    match strrchr t '/' with
    | none => none
    | some slash =>
      match quoted_field p "UUID=\"", quoted_field p "TYPE=\"" with
      | some uuid, some fs =>
        some { name := String.mk (t.drop (slash + 1)), uuid := uuid, fs := fs,
               mount_path := "", keep_mounted := 0 }
      | _, _ => none

/-- The function `multirom_mount_usb`: the return value and the partition
afterwards (`mount_path` is set on success; "" stands for `NULL`). -/
def multirom_mount_usb (w : PartEnv) (part : usb_partition) : Int × usb_partition :=
  let path := "/mnt/" ++ part.name
  if !w.mkdir_ok path then (-1, part)
  else if !w.mount_ok ("/dev/block/" ++ part.name) path part.fs then (-1, part)
  else (0, { part with mount_path := path })

/-- The loop `while(p != NULL)` of `multirom_update_partitions` over the tokens:
the partitions added to the list, in order, `none` where the C code is
undefined. -/
def partitions_loop (w : PartEnv) : List (List Char) → Option (List usb_partition)
  | [] => some []
  | p :: rest =>
    if (strstr p "/sd".toList).isNone then partitions_loop w rest
    else
      match parse_partition p with
      | none => none
      | some part =>
        match partitions_loop w rest with
        | none => none
        | some added =>
          if (multirom_mount_usb w part).1 = 0 then some ((multirom_mount_usb w part).2 :: added)
          else some added

/-- Result of `multirom_update_partitions`: the return value (`none` where the C
code is undefined), the status afterwards, and the mount paths passed to
`umount` by `multirom_destroy_partition` when the old list is cleared. -/
structure PartitionsResult where
  ret : Option Int
  status : multirom_status
  unmounted : List String
  deriving DecidableEq, Repr

/-- The function `multirom_update_partitions`. -/
def multirom_update_partitions (w : PartEnv) (s : multirom_status) : PartitionsResult :=
  let unmounted := (s.partitions.filter fun p => p.keep_mounted = 0).map fun p => p.mount_path
  let s0 := { s with partitions := [] }
  match w.run_get_stdout [w.busybox_path, "blkid"] with
  | none => { ret := some (-1), status := s0, unmounted := unmounted }
  | some res =>
    match partitions_loop w (strtok_lines res) with
    | none => { ret := none, status := s0, unmounted := unmounted }
    | some added =>
      { ret := some 0, status := { s0 with partitions := s0.partitions ++ added },
        unmounted := unmounted }

/-- The partition a line of the partition-identification output stands for, if
its mount succeeds: device name, UUID and type parsed from the line, mounted at
`/mnt/<name>`. -/
def mounted_partition (w : PartEnv) (line : List Char) : Option usb_partition :=
  match parse_partition line with
  | none => none
  | some part =>
    if w.mkdir_ok ("/mnt/" ++ part.name)
        && w.mount_ok ("/dev/block/" ++ part.name) ("/mnt/" ++ part.name) part.fs then
      some { part with mount_path := "/mnt/" ++ part.name }
    else none

/-- The output of `blkid` on a device with two internal partitions and a USB
stick with an ext4 and a vfat partition. -/
def blkid_output : List Char :=
  ("/dev/block/mmcblk0p1: UUID=\"57f8f4bc\" TYPE=\"ext4\"\n"
    ++ "/dev/block/sda1: UUID=\"0a1b\" TYPE=\"ext4\"\n"
    ++ "/dev/block/mmcblk0p9: UUID=\"c0ffee\" TYPE=\"ext4\"\n"
    ++ "/dev/block/sda2: UUID=\"4E3F-1B2C\" TYPE=\"vfat\"\n").toList

/-- A system whose `blkid` prints `blkid_output` and on which ext4 partitions
mount and others do not. -/
def part_env : PartEnv :=
  { busybox_path := "/realdata/media/multirom/busybox",
    run_get_stdout := fun _ => some blkid_output,
    mkdir_ok := fun _ => true,
    mount_ok := fun _ _ fs => fs = some "ext4" }

/-- A status whose partition list holds a partition `sdb1` that is gone. -/
def stale_partitions : multirom_status :=
  { is_second_boot := 0, current_rom := none, auto_boot_rom := none, auto_boot_seconds := 5,
    roms := [],
    partitions := [{ name := "sdb1", uuid := some "dead", fs := some "ext4",
                     mount_path := "/mnt/sdb1", keep_mounted := 0 }] }

/-- The lines of a script, each with its newline (the last one may lack it): what
`fgets` returns when its buffer holds any line of the script. -/
def script_lines (script : List Char) : List (List Char) :=
  read_lines (script.length + 1) script.length script

/-- A script of two lines: 1023 times the letter `a` followed by
`service sdcard /system/bin/sdcard`, then `    class late_start`. -/
def long_sd : List Char :=
  List.replicate 1023 'a'
    ++ "service sdcard /system/bin/sdcard\n    class late_start\n".toList

/-! ## Theorems -/

set_option maxRecDepth 100000

theorem scan_rows_eval (access : String → Bool) (rom : multirom_rom) :
    scan_rows access rom folders types_int types_usb =
      if access (rom.base_path ++ "/" ++ "system") && access (rom.base_path ++ "/" ++ "data")
          && access (rom.base_path ++ "/" ++ "cache") then
        (if rom.partition.isNone then ROM_ANDROID_INTERNAL else ROM_ANDROID_USB_DIR)
      else if access (rom.base_path ++ "/" ++ "root") then
        (if rom.partition.isNone then ROM_UBUNTU_INTERNAL else ROM_UBUNTU_USB_DIR)
      else if access (rom.base_path ++ "/" ++ "system.img")
          && access (rom.base_path ++ "/" ++ "data.img")
          && access (rom.base_path ++ "/" ++ "cache.img") then
        (if rom.partition.isNone then ROM_UNKNOWN else ROM_ANDROID_USB_IMG)
      else if access (rom.base_path ++ "/" ++ "root.img") then
        (if rom.partition.isNone then ROM_UNKNOWN else ROM_UBUNTU_USB_IMG)
      else ROM_UNKNOWN := by
  simp only [folders, types_int, types_usb, scan_rows, row_okay, FOLDERS]
  cases access (rom.base_path ++ "/" ++ "system") <;>
  cases access (rom.base_path ++ "/" ++ "data") <;>
  cases access (rom.base_path ++ "/" ++ "cache") <;>
  cases access (rom.base_path ++ "/" ++ "root") <;>
  cases access (rom.base_path ++ "/" ++ "system.img") <;>
  cases access (rom.base_path ++ "/" ++ "data.img") <;>
  cases access (rom.base_path ++ "/" ++ "cache.img") <;>
  cases access (rom.base_path ++ "/" ++ "root.img") <;> simp

/-- C1: `multirom_get_rom_type` applies its tests in a fixed order and the first
passing test wins. A ROM without partition reference named "Internal" is
`ROM_DEFAULT` whatever `access` says; any other ROM with `system`, `data` and
`cache` accessible is of the Android directory layout, whatever else exists;
failing that, with `root` accessible it is of the Ubuntu directory layout; and
when none of the four groups is present it is `ROM_UNKNOWN`. -/
theorem get_rom_type_first_match (access : String → Bool) (rom : multirom_rom) :
    (rom.partition = none ∧ rom.name = "Internal" →
        multirom_get_rom_type access rom = ROM_DEFAULT) ∧
    (¬ (rom.partition = none ∧ rom.name = "Internal") →
      (present access rom "system" ∧ present access rom "data" ∧ present access rom "cache" →
        multirom_get_rom_type access rom =
          if rom.partition = none then ROM_ANDROID_INTERNAL else ROM_ANDROID_USB_DIR) ∧
      (¬ (present access rom "system" ∧ present access rom "data" ∧ present access rom "cache") →
        present access rom "root" →
        multirom_get_rom_type access rom =
          if rom.partition = none then ROM_UBUNTU_INTERNAL else ROM_UBUNTU_USB_DIR) ∧
      (¬ (present access rom "system" ∧ present access rom "data" ∧ present access rom "cache") →
        ¬ present access rom "root" →
        ¬ (present access rom "system.img" ∧ present access rom "data.img" ∧
            present access rom "cache.img") →
        ¬ present access rom "root.img" →
        multirom_get_rom_type access rom = ROM_UNKNOWN)) := by
  refine ⟨?_, ?_⟩
  · rintro ⟨hp, hn⟩
    simp [multirom_get_rom_type, hp, hn, INTERNAL_ROM_NAME]
  · intro hnd
    have hd : (rom.partition.isNone && rom.name == INTERNAL_ROM_NAME) = false := by
      cases hp : rom.partition with
      | some p => simp
      | none =>
        have : rom.name ≠ "Internal" := fun h => hnd ⟨hp, h⟩
        simp [INTERNAL_ROM_NAME, this]
    have hnone : rom.partition.isNone = true ↔ rom.partition = none := by
      cases rom.partition <;> simp
    simp only [multirom_get_rom_type, hd, scan_rows_eval, present]
    refine ⟨?_, ?_, ?_⟩
    · rintro ⟨h1, h2, h3⟩
      simp [h1, h2, h3, hnone]
    · intro h hr
      have : (access (rom.base_path ++ "/" ++ "system") && access (rom.base_path ++ "/" ++ "data")
          && access (rom.base_path ++ "/" ++ "cache")) = false := by
        simpa [Bool.and_assoc] using h
      simp [this, hr, hnone]
    · intro h hr hi hri
      have h1 : (access (rom.base_path ++ "/" ++ "system") && access (rom.base_path ++ "/" ++ "data")
          && access (rom.base_path ++ "/" ++ "cache")) = false := by
        simpa [Bool.and_assoc] using h
      have h2 : (access (rom.base_path ++ "/" ++ "system.img")
          && access (rom.base_path ++ "/" ++ "data.img")
          && access (rom.base_path ++ "/" ++ "cache.img")) = false := by
        simpa [Bool.and_assoc] using hi
      simp [h1, h2, hr, hri]

/-- Witness for C1: the four branches of `get_rom_type_first_match` at concrete
ROMs and file systems. -/
theorem get_rom_type_first_match_witness :
    multirom_get_rom_type (fun _ => true) c1_internal = ROM_DEFAULT ∧
    multirom_get_rom_type (fun _ => true) c1_usb = ROM_ANDROID_USB_DIR ∧
    multirom_get_rom_type (fun p => p == "/mnt/sda1/multirom/cm/root") c1_usb
      = ROM_UBUNTU_USB_DIR ∧
    multirom_get_rom_type (fun _ => false) c1_usb = ROM_UNKNOWN :=
  ⟨(get_rom_type_first_match (fun _ => true) c1_internal).1 (by decide),
   ((get_rom_type_first_match (fun _ => true) c1_usb).2 (by decide)).1 (by decide),
   ((get_rom_type_first_match (fun p => p == "/mnt/sda1/multirom/cm/root") c1_usb).2
      (by decide)).2.1 (by decide) (by decide),
   ((get_rom_type_first_match (fun _ => false) c1_usb).2 (by decide)).2.2
      (by decide) (by decide) (by decide) (by decide)⟩

/-- C2, counterexample: a local ROM (no partition reference, not named
"Internal") whose storage root holds `system.img`, `data.img`, `cache.img` and
`root.img` and neither directory layout is classified `ROM_UNKNOWN`, not as an
image-layout type: `types_int` has `ROM_UNKNOWN` in both image rows. -/
theorem get_rom_type_local_img_unknown :
    c2_local.partition = none ∧ c2_local.name ≠ "Internal" ∧
    ¬ (present c2_access c2_local "system" ∧ present c2_access c2_local "data" ∧
        present c2_access c2_local "cache") ∧
    ¬ present c2_access c2_local "root" ∧
    (present c2_access c2_local "system.img" ∧ present c2_access c2_local "data.img" ∧
        present c2_access c2_local "cache.img") ∧
    present c2_access c2_local "root.img" ∧
    multirom_get_rom_type c2_access c2_local = ROM_UNKNOWN := by
  decide

/-- C2, amended: for a ROM whose storage root matches neither directory layout,
the image layouts are recognised only with a partition reference: then
`system.img`, `data.img`, `cache.img` all present give `ROM_ANDROID_USB_IMG`,
and otherwise `root.img` present gives `ROM_UBUNTU_USB_IMG`. A ROM without a
partition reference that is not the Default ROM is `ROM_UNKNOWN` there,
whatever image files exist. -/
theorem get_rom_type_img_layouts (access : String → Bool) (rom : multirom_rom)
    (hdir : ¬ (present access rom "system" ∧ present access rom "data" ∧
        present access rom "cache"))
    (hroot : ¬ present access rom "root") :
    (rom.partition ≠ none →
      (present access rom "system.img" ∧ present access rom "data.img" ∧
          present access rom "cache.img" →
        multirom_get_rom_type access rom = ROM_ANDROID_USB_IMG) ∧
      (¬ (present access rom "system.img" ∧ present access rom "data.img" ∧
          present access rom "cache.img") → present access rom "root.img" →
        multirom_get_rom_type access rom = ROM_UBUNTU_USB_IMG)) ∧
    (rom.partition = none → rom.name ≠ "Internal" →
      multirom_get_rom_type access rom = ROM_UNKNOWN) := by
  have h1 : (access (rom.base_path ++ "/" ++ "system") && access (rom.base_path ++ "/" ++ "data")
      && access (rom.base_path ++ "/" ++ "cache")) = false := by
    simpa [Bool.and_assoc, present] using hdir
  have h2 : access (rom.base_path ++ "/" ++ "root") = false := by
    simpa [present] using hroot
  refine ⟨?_, ?_⟩
  · intro hp
    have hn : rom.partition.isNone = false := by
      cases h : rom.partition with
      | none => exact absurd h hp
      | some _ => rfl
    simp only [multirom_get_rom_type, hn, Bool.false_and, scan_rows_eval, h1, h2, present]
    refine ⟨?_, ?_⟩
    · rintro ⟨a, b, c⟩
      simp [a, b, c]
    · intro hi hri
      have h3 : (access (rom.base_path ++ "/" ++ "system.img")
          && access (rom.base_path ++ "/" ++ "data.img")
          && access (rom.base_path ++ "/" ++ "cache.img")) = false := by
        simpa [Bool.and_assoc] using hi
      simp [h3, hri]
  · intro hp hname
    simp [multirom_get_rom_type, hp, hname, INTERNAL_ROM_NAME, scan_rows_eval, h1, h2]

/-- Witness for C2 (amended): a USB ROM holding only the three Android images is
`ROM_ANDROID_USB_IMG`. -/
theorem get_rom_type_img_layouts_witness :
    multirom_get_rom_type c2_access c2_usb = ROM_ANDROID_USB_IMG :=
  ((get_rom_type_img_layouts c2_access c2_usb (by decide) (by decide)).1 (by decide)).1
    (by decide)

theorem bytes_at_length (f : FILE) (off n : Nat) : (bytes_at f off n).length = n := by
  simp [bytes_at]

theorem ceil_mul_ge (k p : Nat) (hp : 0 < p) : k ≤ (k + p - 1) / p * p := by
  have h1 := Nat.div_add_mod (k + p - 1) p
  have h2 := Nat.mod_lt (k + p - 1) hp
  have h3 : (k + p - 1) / p * p = p * ((k + p - 1) / p) := Nat.mul_comm _ _
  omega

theorem ramdisk_offset_eq (k p : Nat) (hp : 0 < p)
    (h : p + (k + p - 1) / p * p < 2 ^ 32) :
    ramdisk_offset k p = p + (k + p - 1) / p * p := by
  have hc := ceil_mul_ge k p hp
  have e1 : u32 (k + p) = k + p := Nat.mod_eq_of_lt (by omega)
  have e2 : u32 (k + p + (2 ^ 32 - 1)) = k + p - 1 := by
    unfold u32
    have : k + p + (2 ^ 32 - 1) = (k + p - 1) + 2 ^ 32 := by omega
    rw [this, Nat.add_mod_right]
    exact Nat.mod_eq_of_lt (by omega)
  have e3 : u32 ((k + p - 1) / p * p) = (k + p - 1) / p * p := Nat.mod_eq_of_lt (by omega)
  have e4 : u32 (p + (k + p - 1) / p * p) = p + (k + p - 1) / p * p := Nat.mod_eq_of_lt h
  simp only [ramdisk_offset, e1, e2, e3, e4]

theorem extract_bytes_full (w : BootEnv) (dst : String) (src : FILE) (n : Nat)
    (hopen : w.fopen_w dst = true) (hsize : src.pos + n ≤ src.size) :
    multirom_extract_bytes w dst src n =
      { ret := 0, written := some (bytes_at src src.pos n),
        src := { src with pos := src.pos + n } } := by
  have hmin : min n (src.size - src.pos) = n := by omega
  simp [multirom_extract_bytes, hopen, fread, hmin, bytes_at_length]

/-- C3, counterexample: with `kernel_size = 1`, `ramdisk_size = 1`,
`page_size = 2 ^ 31` and a file of `2 ^ 32 + 1` bytes (exactly
`P + ceil(K/P)*P + R`), the ramdisk offset `p + ((kernel_size + p - 1)/p)*p`
wraps to 0 in `unsigned` arithmetic: `/initrd.img` receives the byte at offset
0, not the byte at offset `2 ^ 32`. -/
theorem fill_kexec_android_offset_wraps :
    0 < c3_hdr.page_size ∧
    c3_hdr.kernel_size < 2 ^ 32 ∧ c3_hdr.ramdisk_size < 2 ^ 32 ∧ c3_hdr.page_size < 2 ^ 32 ∧
    c3_hdr.page_size + (c3_hdr.kernel_size + c3_hdr.page_size - 1) / c3_hdr.page_size
        * c3_hdr.page_size + c3_hdr.ramdisk_size ≤ c3_file.size ∧
    bytes_at c3_file (c3_hdr.page_size
        + (c3_hdr.kernel_size + c3_hdr.page_size - 1) / c3_hdr.page_size * c3_hdr.page_size)
        c3_hdr.ramdisk_size = [7] ∧
    (multirom_fill_kexec_android c3_env c2_local).files
      = [("/zImage", [0]), ("/initrd.img", [65])] := by
  decide

/-- C3, amended: when the ramdisk offset `P + ceil(K/P)*P` is below `2 ^ 32`
(no wrap in the `unsigned` computation) and fits the `long` offset of `fseek`,
`P > 0`, the file has at least `P + ceil(K/P)*P + R` bytes and both
destinations open, `/zImage` receives exactly the `K` bytes at offsets
`[P, P+K)` and `/initrd.img` exactly the `R` bytes at offsets
`[P + ceil(K/P)*P, P + ceil(K/P)*P + R)`. -/
theorem fill_kexec_android_extracts (w : BootEnv) (rom : multirom_rom) (f : FILE)
    (hopen : w.fopen_r (rom.base_path ++ "/boot.img") = some f)
    (hz : w.fopen_w "/zImage" = true) (hi : w.fopen_w "/initrd.img" = true)
    (hP : 0 < (w.read_hdr f).page_size)
    (hoff : (w.read_hdr f).page_size + ((w.read_hdr f).kernel_size + (w.read_hdr f).page_size - 1)
        / (w.read_hdr f).page_size * (w.read_hdr f).page_size < 2 ^ 32)
    (hlong : (w.read_hdr f).page_size
        + ((w.read_hdr f).kernel_size + (w.read_hdr f).page_size - 1)
        / (w.read_hdr f).page_size * (w.read_hdr f).page_size < 2 ^ (w.long_bits - 1))
    (hsize : (w.read_hdr f).page_size
        + ((w.read_hdr f).kernel_size + (w.read_hdr f).page_size - 1)
        / (w.read_hdr f).page_size * (w.read_hdr f).page_size
        + (w.read_hdr f).ramdisk_size ≤ f.size) :
    (multirom_fill_kexec_android w rom).files =
      [("/zImage", bytes_at f (w.read_hdr f).page_size (w.read_hdr f).kernel_size),
       ("/initrd.img", bytes_at f ((w.read_hdr f).page_size
          + ((w.read_hdr f).kernel_size + (w.read_hdr f).page_size - 1)
          / (w.read_hdr f).page_size * (w.read_hdr f).page_size)
          (w.read_hdr f).ramdisk_size)] := by
  generalize hh : w.read_hdr f = hdr at *
  obtain ⟨K, R, P, cl⟩ := hdr
  simp only at hP hoff hlong hsize ⊢
  have hc := ceil_mul_ge K P hP
  have hro := ramdisk_offset_eq K P hP hoff
  have hs1 : fseek_set w.long_bits (fread f w.sizeof_boot_img_hdr).2 P
      = { size := f.size, byte := f.byte, pos := P } := by
    have : P < 2 ^ (w.long_bits - 1) := by omega
    simp [fseek_set, this, fread]
  have he1 := extract_bytes_full w "/zImage" { size := f.size, byte := f.byte, pos := P } K hz
    (by simp only; omega)
  have hs2 : fseek_set w.long_bits { size := f.size, byte := f.byte, pos := P + K }
      (P + (K + P - 1) / P * P)
      = { size := f.size, byte := f.byte, pos := P + (K + P - 1) / P * P } := by
    simp [fseek_set, hlong]
  have he2 := extract_bytes_full w "/initrd.img"
    { size := f.size, byte := f.byte, pos := P + (K + P - 1) / P * P } R hi (by simp only; omega)
  have hP0 : P ≠ 0 := by omega
  simp only [multirom_fill_kexec_android, hopen, hh, hs1, he1, hro, hs2, he2]
  cases w.proc_cmdline <;> simp [written_file, bytes_at, hP0]

/-- Witness for C3 (amended): kernel of 3 bytes, ramdisk of 2 bytes, pages of 4
bytes, in a file of 14 bytes whose byte at offset `i` is `i`. -/
theorem fill_kexec_android_extracts_witness :
    (multirom_fill_kexec_android small_env c2_local).files
      = [("/zImage", bytes_at small_file 4 3), ("/initrd.img", bytes_at small_file 8 2)] :=
  fill_kexec_android_extracts small_env c2_local small_file rfl rfl rfl
    (by decide) (by decide) (by decide) (by decide)

theorem extract_bytes_open (w : BootEnv) (dst : String) (src : FILE) (n : Nat)
    (hopen : w.fopen_w dst = true) :
    (multirom_extract_bytes w dst src n).ret = 0 ∧
    ∃ b, (multirom_extract_bytes w dst src n).written = some b ∧ b.length = n := by
  refine ⟨by simp [multirom_extract_bytes, hopen], ?_⟩
  refine ⟨_, by simp only [multirom_extract_bytes, hopen]; rfl, ?_⟩
  simp only [List.length_append, List.length_map, List.length_range, fread, bytes_at]
  omega

/-- C4, counterexample: a boot image of 1030 bytes whose header declares pages
of 1024 bytes, a kernel of 10 bytes and a ramdisk of 10 bytes is shorter than
the extents declared (`P + K = 1034`, `P + ceil(K/P)*P + R = 2058`), yet it is
decoded with success: `/zImage` gets the 6 bytes the file has and 4 bytes the
fresh buffer held (170), `/initrd.img` gets 10 such bytes,
`multirom_load_kexec` runs the kexec tool on them and returns 0, and
`multirom_prepare_for_boot` returns the mask `EXIT_KEXEC | EXIT_UMOUNT`. -/
theorem fill_kexec_android_truncated_ok :
    c4_file.size < c4_hdr.page_size + c4_hdr.kernel_size ∧
    c4_file.size < c4_hdr.page_size
      + (c4_hdr.kernel_size + c4_hdr.page_size - 1) / c4_hdr.page_size
        * c4_hdr.page_size + c4_hdr.ramdisk_size ∧
    (multirom_fill_kexec_android c4_env.toBootEnv c4_rom).ret = some 0 ∧
    (multirom_fill_kexec_android c4_env.toBootEnv c4_rom).files
      = [("/zImage", [0, 1, 2, 3, 4, 5, 170, 170, 170, 170]),
         ("/initrd.img", [170, 170, 170, 170, 170, 170, 170, 170, 170, 170])] ∧
    (multirom_load_kexec c4_env c4_rom).ret = some 0 ∧
    (multirom_load_kexec c4_env c4_rom).cmds.head? =
      some ["/realdata/media/multirom/kexec", "--load-hardboot", "/zImage",
        "--mem-min=0xA0000000", "--initrd=/initrd.img",
        "--command-line=console=tty1 quiet"] ∧
    (multirom_prepare_for_boot c4_prepare_env first_boot c4_rom).ret
      = some ((EXIT_KEXEC ||| EXIT_UMOUNT : Nat) : Int) := by
  decide

/-- C4, amended: `multirom_fill_kexec_android` does not compare the length of
the file with the header or with the extents it declares. Whenever `boot.img`,
`/zImage`, `/initrd.img` and `/proc/cmdline` can be opened and the page size is
not zero, it returns 0 whatever the length of the file, having written
`kernel_size` bytes to `/zImage` and `ramdisk_size` bytes to `/initrd.img`; for
an Android ROM `multirom_load_kexec` then runs the kexec tool on these files and
returns 0 exactly when the tool exits with 0. -/
theorem fill_kexec_android_ignores_length (w : KexecEnv) (rom : multirom_rom) (f : FILE)
    (cmdline : String)
    (hopen : w.fopen_r (rom.base_path ++ "/boot.img") = some f)
    (hz : w.fopen_w "/zImage" = true) (hi : w.fopen_w "/initrd.img" = true)
    (hc : w.proc_cmdline = some cmdline)
    (hP : (w.read_hdr f).page_size ≠ 0) :
    (multirom_fill_kexec_android w.toBootEnv rom).ret = some 0 ∧
    (multirom_fill_kexec_android w.toBootEnv rom).files.map (fun x => (x.1, x.2.length))
      = [("/zImage", (w.read_hdr f).kernel_size), ("/initrd.img", (w.read_hdr f).ramdisk_size)] ∧
    (rom.type = ROM_ANDROID_INTERNAL ∨ rom.type = ROM_ANDROID_USB_DIR
        ∨ rom.type = ROM_ANDROID_USB_IMG →
      (multirom_load_kexec w rom).cmds.head?
        = some (kexec_cmd w (multirom_fill_kexec_android w.toBootEnv rom)) ∧
      ((multirom_load_kexec w rom).ret = some 0 ↔
        w.run_command (kexec_cmd w (multirom_fill_kexec_android w.toBootEnv rom)) = 0) ∧
      ((multirom_load_kexec w rom).ret = some (-1) ↔
        w.run_command (kexec_cmd w (multirom_fill_kexec_android w.toBootEnv rom)) ≠ 0)) := by
  have key : (multirom_fill_kexec_android w.toBootEnv rom).ret = some 0 ∧
      (multirom_fill_kexec_android w.toBootEnv rom).files.map (fun x => (x.1, x.2.length))
        = [("/zImage", (w.read_hdr f).kernel_size),
           ("/initrd.img", (w.read_hdr f).ramdisk_size)] := by
    simp only [multirom_fill_kexec_android, hopen, hc]
    obtain ⟨r1, b1, hb1, hl1⟩ := extract_bytes_open w.toBootEnv "/zImage"
      (fseek_set w.long_bits (fread f w.sizeof_boot_img_hdr).2 (w.read_hdr f).page_size)
      (w.read_hdr f).kernel_size hz
    obtain ⟨r2, b2, hb2, hl2⟩ := extract_bytes_open w.toBootEnv "/initrd.img"
      (fseek_set w.long_bits (multirom_extract_bytes w.toBootEnv "/zImage"
        (fseek_set w.long_bits (fread f w.sizeof_boot_img_hdr).2 (w.read_hdr f).page_size)
        (w.read_hdr f).kernel_size).src
        (ramdisk_offset (w.read_hdr f).kernel_size (w.read_hdr f).page_size))
      (w.read_hdr f).ramdisk_size hi
    simp [r1, r2, hP, written_file, hb1, hb2, hl1, hl2]
  refine ⟨key.1, key.2, ?_⟩
  intro ht
  have hl : multirom_load_kexec w rom
      = load_kexec_run w (multirom_fill_kexec_android w.toBootEnv rom) true := by
    rcases ht with h | h | h <;>
      simp [multirom_load_kexec, h, load_kexec_after_fill, key.1]
  rw [hl]
  simp only [load_kexec_run, List.head?_cons, true_and]
  by_cases hr : w.run_command (kexec_cmd w (multirom_fill_kexec_android w.toBootEnv rom)) = 0
  · simp [hr]
  · simp [hr]

/-- Witness for C4 (amended): the truncated image of 1030 bytes. -/
theorem fill_kexec_android_ignores_length_witness :
    (multirom_fill_kexec_android c4_env.toBootEnv c4_rom).ret = some 0 :=
  (fill_kexec_android_ignores_length c4_env c4_rom c4_file "console=tty1"
    rfl rfl rfl rfl (by decide)).1

theorem fgets_take_append (n : Nat) (s : List Char) :
    (fgets_take n s).1 ++ (fgets_take n s).2 = s := by
  induction n generalizing s with
  | zero => simp [fgets_take]
  | succ n ih =>
    cases s with
    | nil => simp [fgets_take]
    | cons c t =>
      by_cases hc : c = '\n'
      · simp [fgets_take, hc]
      · simp [fgets_take, hc, ih t]

theorem fgets_take_rest_length (n : Nat) (c : Char) (t : List Char) :
    (fgets_take (n + 1) (c :: t)).2.length ≤ t.length := by
  induction n generalizing c t with
  | zero =>
    by_cases hc : c = '\n'
    · simp [fgets_take, hc]
    · simp [fgets_take, hc]
  | succ n ih =>
    by_cases hc : c = '\n'
    · simp [fgets_take, hc]
    · cases t with
      | nil => simp [fgets_take, hc]
      | cons c2 t2 =>
        have := ih c2 t2
        simp only [fgets_take, hc, if_false] at this ⊢
        simp only [List.length_cons]
        omega

theorem read_lines_flatten (fuel : Nat) (s : List Char) (h : s.length ≤ fuel) :
    (read_lines 1024 fuel s).flatten = s := by
  induction fuel generalizing s with
  | zero =>
    have : s = [] := List.length_eq_zero.mp (by omega)
    simp [read_lines, this]
  | succ fuel ih =>
    cases s with
    | nil => simp [read_lines, fgets]
    | cons c t =>
      have hl : (fgets_take (1024 - 1) (c :: t)).2.length ≤ t.length :=
        fgets_take_rest_length 1022 c t
      have ha : (fgets_take (1024 - 1) (c :: t)).1 ++ (fgets_take (1024 - 1) (c :: t)).2
          = c :: t := fgets_take_append 1023 (c :: t)
      simp only [List.length_cons] at h
      simp only [read_lines, fgets, List.flatten_cons]
      rw [ih _ (by omega)]
      exact ha

theorem rewrite_lines_cons (d : Bool) (line : List Char) (rest : List (List Char)) :
    rewrite_lines d (line :: rest) =
      if has line "on " then line :: rewrite_lines true rest
      else if is_mount_line line then
        (if d then [DUMMY_LINE] else []) ++ ['#'] :: line :: rewrite_lines false rest
      else if begins_with line "service sdcard" then
        line :: CLASS_MAIN :: rewrite_lines d rest.tail
      else line :: rewrite_lines d rest := by
  cases rest with
  | nil => rw [rewrite_lines.eq_2]; simp [rewrite_lines.eq_1]
  | cons y rest2 => rw [rewrite_lines.eq_3]; simp

theorem discard_pending_cons (line : List Char) (rest : List (List Char)) :
    discard_pending (line :: rest) =
      if has line "on " then discard_pending rest
      else if is_mount_line line then discard_pending rest
      else if begins_with line "service sdcard" then
        (if rest = [] then true else discard_pending rest.tail)
      else discard_pending rest := by
  cases rest with
  | nil => rw [discard_pending.eq_2]; simp [discard_pending.eq_1]
  | cons y rest2 => rw [discard_pending.eq_3]; simp

theorem rewrite_lines_id (d : Bool) (lines : List (List Char))
    (h : ∀ l ∈ lines, is_mount_line l = false ∧ begins_with l "service sdcard" = false) :
    rewrite_lines d lines = lines := by
  induction lines generalizing d with
  | nil => simp [rewrite_lines]
  | cons l rest ih =>
    have hl := h l (List.mem_cons_self _ _)
    have hr : ∀ x ∈ rest, is_mount_line x = false ∧ begins_with x "service sdcard" = false :=
      fun x hx => h x (List.mem_cons_of_mem _ hx)
    rw [rewrite_lines_cons]
    by_cases hon : has l "on " = true
    · simp [hon, ih true hr]
    · simp [hon, hl.1, hl.2, ih d hr]

theorem rewrite_lines_append_on (n : Nat) :
    ∀ (pre : List (List Char)) (d : Bool) (l1 : List Char) (tail : List (List Char)),
      pre.length ≤ n → discard_pending pre = false → has l1 "on " = true →
      rewrite_lines d (pre ++ l1 :: tail) = rewrite_lines d pre ++ l1 :: rewrite_lines true tail := by
  induction n with
  | zero =>
    intro pre d l1 tail hlen _ hon
    have : pre = [] := List.length_eq_zero.mp (by omega)
    subst this
    simp [rewrite_lines_cons, hon, rewrite_lines.eq_1]
  | succ n ih =>
    intro pre d l1 tail hlen hdp hon
    cases pre with
    | nil => simp [rewrite_lines_cons, hon, rewrite_lines.eq_1]
    | cons x rest =>
      simp only [List.length_cons] at hlen
      rw [discard_pending_cons] at hdp
      rw [List.cons_append, rewrite_lines_cons, rewrite_lines_cons d x rest]
      by_cases hx : has x "on " = true
      · simp only [hx, if_true] at hdp
        simp [hx, ih rest true l1 tail (by omega) hdp hon]
      · by_cases hm : is_mount_line x = true
        · simp only [hx, hm, if_true] at hdp
          simp [hx, hm, ih rest false l1 tail (by omega) hdp hon]
        · by_cases hs : begins_with x "service sdcard" = true
          · cases rest with
            | nil => simp [hx, hm, hs] at hdp
            | cons y rest2 =>
              simp only [hx, hm, hs, if_true] at hdp
              simp only [List.length_cons] at hlen
              simp only [List.tail_cons, reduceCtorEq, if_false] at hdp
              simp [hx, hm, hs, ih rest2 d l1 tail (by omega) hdp hon]
          · simp only [hx, hm, hs] at hdp
            simp [hx, hm, hs, ih rest d l1 tail (by omega) hdp hon]

theorem has_of_begins_with (l : List Char) (needle : String)
    (h : begins_with l needle = true) : has l needle = true := by
  simp only [begins_with, beq_iff_eq] at h
  simp only [has, h, Option.isSome_some]

/-- C5, counterexample: in the script `service sdcard ...`, `on fs`,
`mount_all ...` the line `on fs` is immediately followed by a line the patcher
removes, but `on fs` itself is the line discarded after the sdcard service: the
output holds neither `on fs` nor the placeholder. -/
theorem rewrite_on_line_discarded :
    read_lines 1024 c5_script.length c5_script =
      ["service sdcard /system/bin/sdcard\n".toList, "on fs\n".toList,
       "    mount_all /fstab.grouper\n".toList] ∧
    begins_with "on fs\n".toList "on " = true ∧
    is_mount_line "    mount_all /fstab.grouper\n".toList = true ∧
    rewrite_rc false c5_script =
      "service sdcard /system/bin/sdcard\n    class main\n#    mount_all /fstab.grouper\n".toList ∧
    ¬ ("on fs\n".toList <:+: rewrite_rc false c5_script) ∧
    ¬ (DUMMY_LINE <:+: rewrite_rc false c5_script) := by
  decide

/-- C5, amended: whenever a line that begins with "on " and is read by the main
loop (it is not the line discarded after a `service sdcard` line) is immediately
followed by a line that contains no "on " and contains "mount_all", or "mount "
together with "/data" or "/system", the output holds, one after the other, the
"on " line, the placeholder `    export DUMMY_LINE_INGORE_IT 1`, the character
`#` and the mount line. Lines are the lines `fgets` returns. -/
theorem rewrite_on_then_mount (d : Bool) (script : List Char)
    (pre post : List (List Char)) (l1 l2 : List Char)
    (hs : read_lines 1024 script.length script = pre ++ l1 :: l2 :: post)
    (hread : discard_pending pre = false)
    (h1 : begins_with l1 "on " = true)
    (h2 : has l2 "on " = false)
    (h3 : is_mount_line l2 = true) :
    rewrite_lines d (read_lines 1024 script.length script) =
      rewrite_lines d pre ++ [l1, DUMMY_LINE, ['#'], l2] ++ rewrite_lines false post ∧
    rewrite_rc d script =
      (rewrite_lines d pre).flatten ++ (l1 ++ DUMMY_LINE ++ '#' :: l2)
        ++ (rewrite_lines false post).flatten := by
  have key : rewrite_lines d (pre ++ l1 :: l2 :: post) =
      rewrite_lines d pre ++ [l1, DUMMY_LINE, ['#'], l2] ++ rewrite_lines false post := by
    rw [rewrite_lines_append_on pre.length pre d l1 (l2 :: post) (Nat.le_refl _) hread
      (has_of_begins_with l1 "on " h1), rewrite_lines_cons true l2 post]
    simp [h2, h3]
  refine ⟨by rw [hs, key], ?_⟩
  simp only [rewrite_rc, hs, key]
  simp

/-- Witness for C5 (amended): the action `on fs` followed by `mount_all`. -/
theorem rewrite_on_then_mount_witness :
    rewrite_rc false "on fs\n    mount_all /fstab.grouper\n".toList =
      "on fs\n    export DUMMY_LINE_INGORE_IT 1\n#    mount_all /fstab.grouper\n".toList :=
  (rewrite_on_then_mount false "on fs\n    mount_all /fstab.grouper\n".toList [] []
    "on fs\n".toList "    mount_all /fstab.grouper\n".toList
    (by decide) (by decide) (by decide) (by decide) (by decide)).2

/-- C6, evaluation at the failing input: the line
`    mount ext4 /dev/block/by-name/partition /system ro` contains "mount " and
"/system", but it also contains "on " (in `partition `), so the first branch of
the rewriter takes it: the script is written out unchanged, the mount line stays
active. -/
theorem rewrite_mount_line_with_on_kept :
    read_lines 1024 c6_script.length c6_script =
      ["on fs\n".toList,
       "    mount ext4 /dev/block/by-name/partition /system ro\n".toList] ∧
    is_mount_line "    mount ext4 /dev/block/by-name/partition /system ro\n".toList = true ∧
    has "    mount ext4 /dev/block/by-name/partition /system ro\n".toList "on " = true ∧
    rewrite_lines false (read_lines 1024 c6_script.length c6_script) =
      ["on fs\n".toList,
       "    mount ext4 /dev/block/by-name/partition /system ro\n".toList] ∧
    rewrite_rc false c6_script = c6_script ∧
    rewrite_rc true c6_script = c6_script := by
  decide

/-- C7, amended: a script in which no line, as `fgets` returns it into
`char line[1024]` (a line of more than 1023 bytes comes in pieces of 1023
bytes), contains "mount_all", none contains "mount " together with "/data" or
"/system", and none begins with "service sdcard" is written out line for line as
it was read, in the same order, nothing added and nothing dropped, so the file
written equals the script, for any value of `add_dummy`. -/
theorem rewrite_rc_unchanged (d : Bool) (script : List Char)
    (hall : ∀ l ∈ read_lines 1024 script.length script, has l "mount_all" = false)
    (hmnt : ∀ l ∈ read_lines 1024 script.length script,
      ¬ (has l "mount " = true ∧ (has l "/data" = true ∨ has l "/system" = true)))
    (hsd : ∀ l ∈ read_lines 1024 script.length script,
      begins_with l "service sdcard" = false) :
    rewrite_lines d (read_lines 1024 script.length script)
      = read_lines 1024 script.length script ∧
    rewrite_rc d script = script := by
  have hid : rewrite_lines d (read_lines 1024 script.length script)
      = read_lines 1024 script.length script := by
    apply rewrite_lines_id
    intro l hl
    refine ⟨?_, hsd l hl⟩
    have h1 := hall l hl
    have h2 := hmnt l hl
    simp only [is_mount_line, h1, Bool.false_or]
    cases hm : has l "mount " <;> cases hd : has l "/data" <;> cases hy : has l "/system" <;>
      simp_all
  exact ⟨hid, by rw [rewrite_rc, hid, read_lines_flatten _ _ (Nat.le_refl _)]⟩

/-- Witness for C7 (amended): a script with an action and a service and no
mount. -/
theorem rewrite_rc_unchanged_witness :
    rewrite_rc true c7_script = c7_script :=
  (rewrite_rc_unchanged true c7_script (by decide) (by decide) (by decide)).2

theorem finalize_kexec_loads (w : PrepareEnv) (t : multirom_rom) (e : Nat) (c : List Call) :
    kexec_loads (prepare_type_finalize w t e c).calls = kexec_loads c := by
  unfold prepare_type_finalize
  cases t.partition <;> cases t.type <;> simp only [] <;> split_ifs <;>
    simp [kexec_loads, List.filter_append]

theorem finalize_moves (w : PrepareEnv) (t : multirom_rom) (e : Nat) (c : List Call) :
    moves (prepare_type_finalize w t e c).calls = moves c := by
  unfold prepare_type_finalize
  cases t.partition <;> cases t.type <;> simp only [] <;> split_ifs <;>
    simp [moves, List.filter_append]

theorem finalize_ret (w : PrepareEnv) (t : multirom_rom) (e : Nat) (c : List Call) (m : Nat)
    (h : (prepare_type_finalize w t e c).ret = some (m : Int)) :
    (is_android t.type = true ∧ leaves_kernel e = false ∧ m = e &&& NOT_EXIT_UMOUNT) ∨
    ((is_android t.type = false ∨ leaves_kernel e = true) ∧ m = e) := by
  unfold prepare_type_finalize at h
  cases ht : t.type <;> simp only [ht] at h <;> (try split_ifs at h) <;>
    simp_all [is_android]

theorem swap_kexec_loads (w : PrepareEnv) (s : multirom_status) (t : multirom_rom)
    (e : Nat) (c : List Call) :
    kexec_loads (prepare_root_swap w s t e c).calls = kexec_loads c := by
  unfold prepare_root_swap
  cases s.current_rom with
  | none => rfl
  | some cur =>
    simp only []
    by_cases hsw : needs_root_swap t = true
    · rw [if_pos hsw]
      cases multirom_get_rom_in_root s with
      | none => rfl
      | some r =>
        simp only []
        by_cases h1 : w.move_out_of_root r = -1
        · rw [if_pos h1]; simp [kexec_loads, List.filter_append]
        · rw [if_neg h1]
          by_cases h2 : w.move_to_root t = -1
          · rw [if_pos h2]; simp [kexec_loads, List.filter_append]
          · rw [if_neg h2, finalize_kexec_loads]; simp [kexec_loads, List.filter_append]
    · rw [if_neg hsw]
      exact finalize_kexec_loads w t e c

theorem swap_ret (w : PrepareEnv) (s : multirom_status) (t : multirom_rom)
    (e : Nat) (c : List Call) (m : Nat)
    (h : (prepare_root_swap w s t e c).ret = some (m : Int)) :
    (is_android t.type = true ∧ leaves_kernel e = false ∧ m = e &&& NOT_EXIT_UMOUNT) ∨
    ((is_android t.type = false ∨ leaves_kernel e = true) ∧ m = e) := by
  unfold prepare_root_swap at h
  cases hc : s.current_rom with
  | none => simp [hc] at h
  | some cur =>
    simp only [hc] at h
    by_cases hsw : needs_root_swap t = true
    · rw [if_pos hsw] at h
      cases hr : multirom_get_rom_in_root s with
      | none => simp only [hr] at h; exact absurd (Option.some.inj h) (by omega)
      | some r =>
        simp only [hr] at h
        by_cases h1 : w.move_out_of_root r = -1
        · rw [if_pos h1] at h; exact absurd (Option.some.inj h) (by omega)
        · rw [if_neg h1] at h
          by_cases h2 : w.move_to_root t = -1
          · rw [if_pos h2] at h; exact absurd (Option.some.inj h) (by omega)
          · rw [if_neg h2] at h; exact finalize_ret w t e _ m h
    · rw [if_neg hsw] at h
      exact finalize_ret w t e _ m h

theorem prepare_kexec_loads (w : PrepareEnv) (s : multirom_status) (to_boot : multirom_rom) :
    kexec_loads (multirom_prepare_for_boot w s to_boot).calls =
      (if wants_kexec s to_boot then [Call.load_kexec to_boot] else []) := by
  unfold multirom_prepare_for_boot
  by_cases hk : wants_kexec s to_boot = true
  · rw [if_pos hk, if_pos hk]
    cases w.load_kexec to_boot with
    | none => simp [kexec_loads]
    | some r =>
      simp only []
      by_cases hr : r ≠ 0
      · rw [if_pos hr]; simp [kexec_loads]
      · rw [if_neg hr, swap_kexec_loads]; simp [kexec_loads]
  · rw [if_neg hk, if_neg hk, swap_kexec_loads]; simp [kexec_loads]

/-- C8: `multirom_prepare_for_boot` calls the Kexec Loader if and only if the
target has a boot image, its type is not Default and `is_second_boot` is 0 (and
then exactly once, on the target); when the loader is called and returns a value
other than 0, the result is -1 and no other call was made (no root swap, no
Android mount); and a returned mask has the kexec-performed bit exactly when the
loader was called. -/
theorem prepare_kexec_gate (w : PrepareEnv) (s : multirom_status) (to_boot : multirom_rom) :
    (wants_kexec s to_boot = true ↔
      (to_boot.has_bootimg ≠ 0 ∧ to_boot.type ≠ ROM_DEFAULT ∧ s.is_second_boot = 0)) ∧
    kexec_loads (multirom_prepare_for_boot w s to_boot).calls =
      (if wants_kexec s to_boot then [Call.load_kexec to_boot] else []) ∧
    (wants_kexec s to_boot = true → ∀ v, w.load_kexec to_boot = some v → v ≠ 0 →
      (multirom_prepare_for_boot w s to_boot).ret = some (-1) ∧
      (multirom_prepare_for_boot w s to_boot).calls = [Call.load_kexec to_boot]) ∧
    (∀ m : Nat, (multirom_prepare_for_boot w s to_boot).ret = some (m : Int) →
      (m &&& EXIT_KEXEC = EXIT_KEXEC ↔ wants_kexec s to_boot = true)) := by
  refine ⟨by simp [wants_kexec, and_assoc], prepare_kexec_loads w s to_boot, ?_, ?_⟩
  · intro hk v hv hne
    simp [multirom_prepare_for_boot, hk, hv, hne]
  · intro m hm
    unfold multirom_prepare_for_boot at hm
    by_cases hk : wants_kexec s to_boot = true
    · rw [if_pos hk] at hm
      cases hl : w.load_kexec to_boot with
      | none => simp [hl] at hm
      | some r =>
        simp only [hl] at hm
        by_cases hr : r ≠ 0
        · rw [if_pos hr] at hm; exact absurd (Option.some.inj hm) (by omega)
        · rw [if_neg hr] at hm
          rcases swap_ret w s to_boot _ _ m hm with ⟨_, h2, _⟩ | ⟨_, h2⟩
          · exact absurd h2 (by decide)
          · subst h2; simp only [hk, iff_true]; decide
    · rw [if_neg hk] at hm
      rcases swap_ret w s to_boot _ _ m hm with ⟨_, _, h2⟩ | ⟨_, h2⟩
      · subst h2; simp only [hk, iff_false]; decide
      · subst h2; simp only [hk, iff_false]; decide

/-- Witness for C8: on a first boot of the Android ROM `cm` with a failing
loader, the result is -1 and the loader call is the only call. -/
theorem prepare_kexec_gate_witness :
    (multirom_prepare_for_boot kexec_fails first_boot c4_rom).ret = some (-1) ∧
    (multirom_prepare_for_boot kexec_fails first_boot c4_rom).calls = [Call.load_kexec c4_rom] :=
  (prepare_kexec_gate kexec_fails first_boot c4_rom).2.2.1 (by decide) (-1) rfl (by decide)

theorem get_rom_in_root_none (s : multirom_status) :
    multirom_get_rom_in_root s = none ↔ ∀ x ∈ s.roms, x.is_in_root = 0 := by
  simp [multirom_get_rom_in_root, List.find?_eq_none]

theorem get_rom_in_root_some (s : multirom_status) (r : multirom_rom)
    (h : multirom_get_rom_in_root s = some r) : r ∈ s.roms ∧ r.is_in_root ≠ 0 := by
  unfold multirom_get_rom_in_root at h
  have h1 := List.mem_of_find?_eq_some h
  have h2 := List.find?_some h
  exact ⟨h1, by simpa using h2⟩

theorem prepare_reaches_swap (w : PrepareEnv) (s : multirom_status) (to_boot : multirom_rom)
    (hk : wants_kexec s to_boot = true → w.load_kexec to_boot = some 0) :
    ∃ e c, multirom_prepare_for_boot w s to_boot = prepare_root_swap w s to_boot e c ∧
      moves c = [] := by
  unfold multirom_prepare_for_boot
  by_cases h : wants_kexec s to_boot = true
  · rw [if_pos h, hk h]
    exact ⟨EXIT_UMOUNT ||| EXIT_KEXEC, [Call.load_kexec to_boot], by simp, by simp [moves]⟩
  · rw [if_neg h]
    exact ⟨EXIT_UMOUNT, [], rfl, by simp [moves]⟩

theorem moves_append (a b : List Call) : moves (a ++ b) = moves a ++ moves b := by
  simp [moves, List.filter_append]

theorem swap_moves (w : PrepareEnv) (s : multirom_status) (t cur : multirom_rom)
    (e : Nat) (c : List Call) (hcur : s.current_rom = some cur) (hc : moves c = []) :
    (needs_root_swap t = true →
      (multirom_get_rom_in_root s = none →
        (prepare_root_swap w s t e c).ret = some (-1) ∧
        moves (prepare_root_swap w s t e c).calls = []) ∧
      (∀ in_root, multirom_get_rom_in_root s = some in_root →
        (w.move_out_of_root in_root = -1 →
          (prepare_root_swap w s t e c).ret = some (-1) ∧
          moves (prepare_root_swap w s t e c).calls = [Call.move_out_of_root in_root]) ∧
        (w.move_out_of_root in_root ≠ -1 →
          moves (prepare_root_swap w s t e c).calls
            = [Call.move_out_of_root in_root, Call.move_to_root t] ∧
          (w.move_to_root t = -1 → (prepare_root_swap w s t e c).ret = some (-1))))) ∧
    (needs_root_swap t = false → moves (prepare_root_swap w s t e c).calls = []) := by
  unfold prepare_root_swap
  simp only [hcur]
  refine ⟨?_, ?_⟩
  · intro hsw
    rw [if_pos hsw]
    refine ⟨?_, ?_⟩
    · intro hn
      simp [hn, hc]
    · intro r hr
      simp only [hr]
      refine ⟨?_, ?_⟩
      · intro h1
        rw [if_pos h1]
        simp only [moves_append, hc, List.nil_append, true_and]
        simp [moves]
      · intro h1
        rw [if_neg h1]
        by_cases h2 : w.move_to_root t = -1
        · rw [if_pos h2]
          simp only [moves_append, hc, List.nil_append]
          exact ⟨by simp [moves], fun _ => trivial⟩
        · rw [if_neg h2, finalize_moves]
          simp only [moves_append, hc, List.nil_append]
          exact ⟨by simp [moves], fun h => absurd h h2⟩
  · intro hsw
    rw [hsw]
    simp only [Bool.false_eq_true, if_false]
    rw [finalize_moves]
    exact hc

/-- C9, counterexample: the target `ubuntu` is not in root and of type
`ROM_UBUNTU_INTERNAL`, and the registry has a ROM in root (`Internal`), but the
Kexec Loader, which runs first, fails: the result is -1 and neither
`multirom_move_out_of_root` nor `multirom_move_to_root` was called. -/
theorem prepare_no_swap_after_kexec_failure :
    ubuntu_rom.is_in_root = 0 ∧ ubuntu_rom.type = ROM_UBUNTU_INTERNAL ∧
    multirom_get_rom_in_root first_boot = some internal_rom ∧
    (multirom_prepare_for_boot kexec_fails first_boot ubuntu_rom).ret = some (-1) ∧
    (multirom_prepare_for_boot kexec_fails first_boot ubuntu_rom).calls
      = [Call.load_kexec ubuntu_rom] ∧
    moves (multirom_prepare_for_boot kexec_fails first_boot ubuntu_rom).calls = [] := by
  decide

/-- C9, amended: when the Kexec step did not stop the run (the loader was not
called, or it returned 0) and the status has a current ROM, a root swap is
attempted exactly when the target is not in root and its type is UbuntuInternal
or Default. Then, if no ROM of the registry has `is_in_root` set, the result is
-1 and no move was issued; otherwise `multirom_move_out_of_root` runs on the
first ROM in root; if it returns -1 the result is -1 and `multirom_move_to_root`
was not started; else `multirom_move_to_root` runs next on the target, and the
result is -1 if it returns -1. For every other target no move is issued. -/
theorem prepare_root_swap_pairing (w : PrepareEnv) (s : multirom_status)
    (to_boot cur : multirom_rom)
    (hcur : s.current_rom = some cur)
    (hk : wants_kexec s to_boot = true → w.load_kexec to_boot = some 0) :
    (needs_root_swap to_boot = true ↔
      (to_boot.is_in_root = 0 ∧
        (to_boot.type = ROM_UBUNTU_INTERNAL ∨ to_boot.type = ROM_DEFAULT))) ∧
    (multirom_get_rom_in_root s = none ↔ ∀ x ∈ s.roms, x.is_in_root = 0) ∧
    (needs_root_swap to_boot = true →
      (multirom_get_rom_in_root s = none →
        (multirom_prepare_for_boot w s to_boot).ret = some (-1) ∧
        moves (multirom_prepare_for_boot w s to_boot).calls = []) ∧
      (∀ in_root, multirom_get_rom_in_root s = some in_root →
        in_root ∈ s.roms ∧ in_root.is_in_root ≠ 0 ∧
        (w.move_out_of_root in_root = -1 →
          (multirom_prepare_for_boot w s to_boot).ret = some (-1) ∧
          moves (multirom_prepare_for_boot w s to_boot).calls
            = [Call.move_out_of_root in_root]) ∧
        (w.move_out_of_root in_root ≠ -1 →
          moves (multirom_prepare_for_boot w s to_boot).calls
            = [Call.move_out_of_root in_root, Call.move_to_root to_boot] ∧
          (w.move_to_root to_boot = -1 →
            (multirom_prepare_for_boot w s to_boot).ret = some (-1))))) ∧
    (needs_root_swap to_boot = false →
      moves (multirom_prepare_for_boot w s to_boot).calls = []) := by
  obtain ⟨e, c, heq, hc⟩ := prepare_reaches_swap w s to_boot hk
  have hsw := swap_moves w s to_boot cur e c hcur hc
  rw [heq]
  refine ⟨by simp [needs_root_swap], get_rom_in_root_none s, ?_, hsw.2⟩
  intro hn
  refine ⟨(hsw.1 hn).1, ?_⟩
  intro r hr
  have hs := get_rom_in_root_some s r hr
  exact ⟨hs.1, hs.2, ((hsw.1 hn).2 r hr).1, ((hsw.1 hn).2 r hr).2⟩

/-- Witness for C9 (amended): booting `ubuntu` on a first boot where every
callee succeeds moves `Internal` out of the root and then `ubuntu` into it. -/
theorem prepare_root_swap_pairing_witness :
    moves (multirom_prepare_for_boot all_ok first_boot ubuntu_rom).calls
      = [Call.move_out_of_root internal_rom, Call.move_to_root ubuntu_rom] :=
  ((((prepare_root_swap_pairing all_ok first_boot ubuntu_rom internal_rom rfl
    (fun _ => rfl)).2.2.1 (by decide)).2 internal_rom (by decide)).2.2.2 (by decide)).1

/-- C10: for a target of an Android type for which `multirom_prepare_for_boot`
returns a mask, the post-boot-unmount bit is cleared if and only if the Kexec
Loader was not called (the system stays on the current kernel) and the mask is
then 0; when the loader was called the mask is exactly
`EXIT_KEXEC | EXIT_UMOUNT`; in both cases the mask has none of the bits reboot,
reboot-recovery, reboot-bootloader and shutdown. -/
theorem prepare_android_mask (w : PrepareEnv) (s : multirom_status) (to_boot : multirom_rom)
    (m : Nat)
    (htype : to_boot.type = ROM_ANDROID_INTERNAL ∨ to_boot.type = ROM_ANDROID_USB_DIR
      ∨ to_boot.type = ROM_ANDROID_USB_IMG)
    (hret : (multirom_prepare_for_boot w s to_boot).ret = some (m : Int)) :
    (m &&& EXIT_UMOUNT = 0 ↔
      kexec_loads (multirom_prepare_for_boot w s to_boot).calls = []) ∧
    (kexec_loads (multirom_prepare_for_boot w s to_boot).calls = [] → m = 0) ∧
    (kexec_loads (multirom_prepare_for_boot w s to_boot).calls ≠ [] →
      m = EXIT_KEXEC ||| EXIT_UMOUNT) ∧
    m &&& (EXIT_REBOOT ||| EXIT_REBOOT_RECOVERY ||| EXIT_REBOOT_BOOTLOADER ||| EXIT_SHUTDOWN)
      = 0 := by
  have ha : is_android to_boot.type = true := by
    rcases htype with h | h | h <;> simp [is_android, h]
  rw [prepare_kexec_loads w s to_boot]
  unfold multirom_prepare_for_boot at hret
  by_cases hk : wants_kexec s to_boot = true
  · rw [if_pos hk] at hret
    simp only [hk, if_true]
    cases hl : w.load_kexec to_boot with
    | none => simp [hl] at hret
    | some r =>
      simp only [hl] at hret
      by_cases hr : r ≠ 0
      · rw [if_pos hr] at hret; exact absurd (Option.some.inj hret) (by omega)
      · rw [if_neg hr] at hret
        rcases swap_ret w s to_boot _ _ m hret with ⟨_, h2, _⟩ | ⟨_, h2⟩
        · exact absurd h2 (by decide)
        · subst h2
          exact ⟨⟨fun h => absurd h (by decide), fun h => absurd h (by simp)⟩,
            fun h => absurd h (by simp), fun _ => by decide, by decide⟩
  · rw [if_neg hk] at hret
    have hk2 : wants_kexec s to_boot = false := by simpa using hk
    rw [hk2, if_neg Bool.false_ne_true]
    rcases swap_ret w s to_boot _ _ m hret with ⟨_, _, h2⟩ | ⟨h1, h2⟩
    · subst h2
      exact ⟨⟨fun _ => rfl, fun _ => by decide⟩, fun _ => by decide,
        fun h => absurd rfl h, by decide⟩
    · rcases h1 with h1 | h1
      · rw [ha] at h1; exact absurd h1 (by decide)
      · exact absurd h1 (by decide)

/-- Witness for C10: a first boot of the Android ROM `cm`, which has a boot
image, returns the mask `EXIT_KEXEC | EXIT_UMOUNT`. -/
theorem prepare_android_mask_witness :
    (multirom_prepare_for_boot all_ok first_boot c4_rom).ret = some ((0x22 : Nat) : Int) ∧
    (0x22 : Nat) = EXIT_KEXEC ||| EXIT_UMOUNT :=
  ⟨by decide,
   (prepare_android_mask all_ok first_boot c4_rom 0x22 (Or.inl rfl) (by decide)).2.2.1
    (by decide)⟩

theorem load_kexec_android_decode (w : KexecEnv) (rom : multirom_rom)
    (ht : rom.type = ROM_ANDROID_INTERNAL ∨ rom.type = ROM_ANDROID_USB_DIR
      ∨ rom.type = ROM_ANDROID_USB_IMG) :
    (multirom_load_kexec w rom).android_decode = true ∧
    (multirom_load_kexec w rom).fill = some (multirom_fill_kexec_android w.toBootEnv rom) := by
  have h : multirom_load_kexec w rom
      = load_kexec_after_fill w (multirom_fill_kexec_android w.toBootEnv rom) true := by
    rcases ht with h | h | h <;> simp [multirom_load_kexec, h]
  rw [h]
  unfold load_kexec_after_fill
  cases (multirom_fill_kexec_android w.toBootEnv rom).ret with
  | none => exact ⟨rfl, rfl⟩
  | some v =>
    simp only []
    by_cases hv : v ≠ 0
    · rw [if_pos hv]; exact ⟨rfl, rfl⟩
    · rw [if_neg hv]; exact ⟨rfl, rfl⟩

/-- C11, counterexample: with the registry `Internal` (Default, in root), `CM11`
(AndroidInternal, boot image) and `is_second_boot = 0`, a successful
`multirom_prepare_for_boot` of `CM11` loads the kexec with the Android decode
and sets up the Android mounts, but it issues no move at all (no root swap) and
its mask is `EXIT_KEXEC | EXIT_UMOUNT`: the post-boot-unmount bit is set. -/
theorem prepare_cm11_no_swap_keeps_umount :
    (multirom_load_kexec c11_env.toKexecEnv cm11_rom).android_decode = true ∧
    multirom_prepare_for_boot (prepare_env c11_env (fun _ => 0) 0 0) cm11_registry cm11_rom =
      { ret := some ((EXIT_KEXEC ||| EXIT_UMOUNT : Nat) : Int),
        calls := [Call.load_kexec cm11_rom, Call.prep_android_mounts cm11_rom,
          Call.create_media_link] } ∧
    moves (multirom_prepare_for_boot (prepare_env c11_env (fun _ => 0) 0 0)
      cm11_registry cm11_rom).calls = [] ∧
    (EXIT_KEXEC ||| EXIT_UMOUNT) &&& EXIT_UMOUNT = EXIT_UMOUNT := by
  decide

/-- C11, amended: for a target of type AndroidInternal with a boot image and
`is_second_boot = 0` (such as `CM11` next to the Default ROM `Internal`), a
successful `multirom_prepare_for_boot` runs the Kexec Loader with the Android
boot-image decode, issues no root swap (`Internal` stays in the live root),
sets up the Android mounts and the media link, and returns exactly
`EXIT_KEXEC | EXIT_UMOUNT`: kexec-performed and post-boot-unmount both set. -/
theorem prepare_android_internal_end_to_end (w : RootEnv) (prep : multirom_rom → Int)
    (media_link stat_rc : Int) (s : multirom_status) (to_boot : multirom_rom) (m : Nat)
    (ht : to_boot.type = ROM_ANDROID_INTERNAL)
    (hb : to_boot.has_bootimg ≠ 0)
    (hs : s.is_second_boot = 0)
    (hret : (multirom_prepare_for_boot (prepare_env w prep media_link stat_rc) s to_boot).ret
      = some (m : Int)) :
    (multirom_load_kexec w.toKexecEnv to_boot).android_decode = true ∧
    (multirom_load_kexec w.toKexecEnv to_boot).fill
      = some (multirom_fill_kexec_android w.toBootEnv to_boot) ∧
    (multirom_load_kexec w.toKexecEnv to_boot).ret = some 0 ∧
    (multirom_prepare_for_boot (prepare_env w prep media_link stat_rc) s to_boot).calls =
      [Call.load_kexec to_boot, Call.prep_android_mounts to_boot, Call.create_media_link]
        ++ (to_boot.partition.map Call.set_keep_mounted).toList ∧
    moves (multirom_prepare_for_boot (prepare_env w prep media_link stat_rc) s to_boot).calls
      = [] ∧
    m = EXIT_KEXEC ||| EXIT_UMOUNT := by
  have hd := load_kexec_android_decode w.toKexecEnv to_boot (Or.inl ht)
  have hk : wants_kexec s to_boot = true := by simp [wants_kexec, ht, hb, hs]
  have hn : needs_root_swap to_boot = false := by simp [needs_root_swap, ht]
  have hlk : leaves_kernel (EXIT_UMOUNT ||| EXIT_KEXEC) = true := by decide
  unfold multirom_prepare_for_boot at hret ⊢
  rw [if_pos hk] at hret ⊢
  simp only [prepare_env] at hret ⊢
  cases hl : (multirom_load_kexec w.toKexecEnv to_boot).ret with
  | none => simp [hl] at hret
  | some r =>
    simp only [hl] at hret ⊢
    by_cases hr : r ≠ 0
    · rw [if_pos hr] at hret; exact absurd (Option.some.inj hret) (by omega)
    · rw [if_neg hr] at hret ⊢
      have hr0 : r = 0 := by simpa using hr
      unfold prepare_root_swap at hret ⊢
      cases hc : s.current_rom with
      | none => simp [hc] at hret
      | some cur =>
        simp only [hc, hn, Bool.false_eq_true, if_false] at hret ⊢
        unfold prepare_type_finalize at hret ⊢
        simp only [ht, hlk, Bool.not_true, Bool.false_eq_true, if_false] at hret ⊢
        by_cases h1 : prep to_boot = -1
        · rw [if_pos h1] at hret; exact absurd (Option.some.inj hret) (by omega)
        · rw [if_neg h1] at hret ⊢
          by_cases h2 : media_link = -1
          · rw [if_pos h2] at hret; exact absurd (Option.some.inj hret) (by omega)
          · rw [if_neg h2] at hret ⊢
            have hm : m = EXIT_UMOUNT ||| EXIT_KEXEC := by
              have := Option.some.inj hret
              exact (Int.ofNat.inj this).symm
            refine ⟨hd.1, hd.2, by rw [hr0], by simp, ?_, by rw [hm]; decide⟩
            cases to_boot.partition <;> simp [moves]

/-- Witness for C11 (amended): `CM11` in the registry `Internal`, `CM11`. -/
theorem prepare_android_internal_end_to_end_witness :
    moves (multirom_prepare_for_boot (prepare_env c11_env (fun _ => 0) 0 0)
      cm11_registry cm11_rom).calls = [] ∧
    (0x22 : Nat) = EXIT_KEXEC ||| EXIT_UMOUNT :=
  ⟨(prepare_android_internal_end_to_end c11_env (fun _ => 0) 0 0 cm11_registry cm11_rom 0x22
      rfl (by decide) rfl (by decide)).2.2.2.2.1,
   (prepare_android_internal_end_to_end c11_env (fun _ => 0) 0 0 cm11_registry cm11_rom 0x22
      rfl (by decide) rfl (by decide)).2.2.2.2.2⟩

/-- C12: for a target of type Default that is in root and has no boot image, in a
status with a current ROM, `multirom_prepare_for_boot` makes no call at all (no
Kexec Loader, no root swap, no init-script patcher, no mount) and returns the mask
`EXIT_UMOUNT`, which has no kexec-performed bit. -/
theorem prepare_default_in_root_noop (w : PrepareEnv) (s : multirom_status)
    (to_boot cur : multirom_rom)
    (ht : to_boot.type = ROM_DEFAULT) (hroot : to_boot.is_in_root ≠ 0)
    (hb : to_boot.has_bootimg = 0) (hcur : s.current_rom = some cur) :
    multirom_prepare_for_boot w s to_boot =
      { ret := some ((EXIT_UMOUNT : Nat) : Int), calls := [] } ∧
    EXIT_UMOUNT &&& EXIT_KEXEC = 0 := by
  refine ⟨?_, by decide⟩
  simp [multirom_prepare_for_boot, wants_kexec, ht, hb, prepare_root_swap, hcur,
    needs_root_swap, hroot, prepare_type_finalize]

/-- Witness for C12: the Default ROM `Internal`, in root, without boot image. -/
theorem prepare_default_in_root_noop_witness :
    multirom_prepare_for_boot kexec_fails first_boot { internal_rom with has_bootimg := 0 } =
      { ret := some ((EXIT_UMOUNT : Nat) : Int), calls := [] } :=
  (prepare_default_in_root_noop kexec_fails first_boot { internal_rom with has_bootimg := 0 }
    internal_rom rfl (by decide) rfl rfl).1

theorem finalize_unbootable (w : PrepareEnv) (t : multirom_rom) (e : Nat) (c : List Call)
    (ht : t.type = ROM_UBUNTU_USB_DIR ∨ t.type = ROM_UBUNTU_USB_IMG ∨ t.type = ROM_UNKNOWN) :
    prepare_type_finalize w t e c = { ret := some (-1), calls := c } := by
  rcases ht with h | h | h <;> simp [prepare_type_finalize, h]

theorem swap_unbootable (w : PrepareEnv) (s : multirom_status) (t cur : multirom_rom)
    (e : Nat) (c : List Call) (hcur : s.current_rom = some cur)
    (ht : t.type = ROM_UBUNTU_USB_DIR ∨ t.type = ROM_UBUNTU_USB_IMG ∨ t.type = ROM_UNKNOWN) :
    prepare_root_swap w s t e c = { ret := some (-1), calls := c } := by
  have hn : needs_root_swap t = false := by
    rcases ht with h | h | h <;> simp [needs_root_swap, h]
  simp [prepare_root_swap, hcur, hn, finalize_unbootable w t e c ht]

/-- C19, counterexample: on a second boot (`is_second_boot = 1`) an Ubuntu ROM on
a USB partition that has a boot image is refused with -1 without the Kexec
Loader having been run: no call at all was made. -/
theorem prepare_usb_ubuntu_second_boot :
    usb_ubuntu_rom.type = ROM_UBUNTU_USB_DIR ∧ usb_ubuntu_rom.has_bootimg = 1 ∧
    usb_ubuntu_rom.partition = some sda1 ∧
    multirom_prepare_for_boot all_ok second_boot usb_ubuntu_rom =
      { ret := some (-1), calls := [] } := by
  decide

/-- C19, amended: for a target of type UbuntuUsbDir, UbuntuUsbImg or Unknown
`multirom_prepare_for_boot` never returns a mask; when the status has a current
ROM (and the Kexec Loader, if called, returns) the result is -1. The Kexec
Loader is called first exactly when the target has a boot image and
`is_second_boot` is 0, and then the -1 comes from the loader or after it;
otherwise the -1 comes without any call. -/
theorem prepare_unbootable_types (w : PrepareEnv) (s : multirom_status)
    (to_boot : multirom_rom)
    (ht : to_boot.type = ROM_UBUNTU_USB_DIR ∨ to_boot.type = ROM_UBUNTU_USB_IMG
      ∨ to_boot.type = ROM_UNKNOWN) :
    (∀ m : Nat, (multirom_prepare_for_boot w s to_boot).ret ≠ some (m : Int)) ∧
    (wants_kexec s to_boot = true ↔ (to_boot.has_bootimg ≠ 0 ∧ s.is_second_boot = 0)) ∧
    (∀ cur, s.current_rom = some cur →
      (wants_kexec s to_boot = true →
        (∀ v, w.load_kexec to_boot = some v →
          multirom_prepare_for_boot w s to_boot =
            { ret := some (-1), calls := [Call.load_kexec to_boot] })) ∧
      (wants_kexec s to_boot = false →
        multirom_prepare_for_boot w s to_boot = { ret := some (-1), calls := [] })) := by
  have hnd : to_boot.type ≠ ROM_DEFAULT := by
    rcases ht with h | h | h <;> simp [h]
  refine ⟨?_, by simp [wants_kexec, hnd], ?_⟩
  · intro m hm
    unfold multirom_prepare_for_boot at hm
    by_cases hk : wants_kexec s to_boot = true
    · rw [if_pos hk] at hm
      cases hl : w.load_kexec to_boot with
      | none => simp [hl] at hm
      | some r =>
        simp only [hl] at hm
        by_cases hr : r ≠ 0
        · rw [if_pos hr] at hm; exact absurd (Option.some.inj hm) (by omega)
        · rw [if_neg hr] at hm
          cases hc : s.current_rom with
          | none => simp [prepare_root_swap, hc] at hm
          | some cur =>
            rw [swap_unbootable w s to_boot cur _ _ hc ht] at hm
            exact absurd (Option.some.inj hm) (by omega)
    · rw [if_neg hk] at hm
      cases hc : s.current_rom with
      | none => simp [prepare_root_swap, hc] at hm
      | some cur =>
        rw [swap_unbootable w s to_boot cur _ _ hc ht] at hm
        exact absurd (Option.some.inj hm) (by omega)
  · intro cur hc
    refine ⟨?_, ?_⟩
    · intro hk v hv
      unfold multirom_prepare_for_boot
      rw [if_pos hk, hv]
      simp only []
      by_cases hr : v ≠ 0
      · rw [if_pos hr]
      · rw [if_neg hr, swap_unbootable w s to_boot cur _ _ hc ht]
    · intro hk
      unfold multirom_prepare_for_boot
      rw [hk, if_neg Bool.false_ne_true, swap_unbootable w s to_boot cur _ _ hc ht]

/-- Witness for C19 (amended): the Ubuntu ROM on the USB partition, on a first
boot with `Internal` as the current ROM: the loader runs, then -1. -/
theorem prepare_unbootable_types_witness :
    multirom_prepare_for_boot all_ok first_boot usb_ubuntu_rom =
      { ret := some (-1), calls := [Call.load_kexec usb_ubuntu_rom] } :=
  ((prepare_unbootable_types all_ok first_boot usb_ubuntu_rom (Or.inl rfl)).2.2
    internal_rom rfl).1 (by decide) 0 rfl

theorem move_out_rom (w : RootEnv) (rom : multirom_rom) :
    (multirom_move_out_of_root w rom).rom = rom := by
  simp only [multirom_move_out_of_root]
  split
  · rfl
  · split <;> rfl

theorem move_to_rom (w : RootEnv) (rom : multirom_rom) :
    (multirom_move_to_root w rom).rom = rom := by
  simp only [multirom_move_to_root]
  split
  · rfl
  · split <;> rfl

theorem move_out_ok (w : RootEnv) (rom : multirom_rom)
    (h : (multirom_move_out_of_root w rom).ret ≠ -1) :
    (multirom_move_out_of_root w rom).unlinked = [marker_path w rom] ∧
    (multirom_move_out_of_root w rom).created = [] := by
  simp only [multirom_move_out_of_root] at h ⊢
  cases ho : w.opendir REALDATA with
  | none => simp [ho] at h
  | some entries =>
    simp only [ho] at h ⊢
    by_cases hl : (move_loop w (fun d_name => REALDATA ++ "/" ++ d_name)
        (w.multirom_dir ++ "/roms/" ++ rom.name ++ "/root/") entries).1 ≠ 0
    · rw [if_pos hl] at h; exact absurd rfl h
    · rw [if_neg hl]; exact ⟨rfl, rfl⟩

theorem move_to_ok (w : RootEnv) (rom : multirom_rom)
    (h : (multirom_move_to_root w rom).ret ≠ -1) :
    (multirom_move_to_root w rom).unlinked = [] ∧
    (multirom_move_to_root w rom).created =
      (if w.fopen_w (marker_path w rom) then [marker_path w rom] else []) := by
  simp only [multirom_move_to_root] at h ⊢
  cases ho : w.opendir (w.multirom_dir ++ "/roms/" ++ rom.name ++ "/root/") with
  | none => simp [ho] at h
  | some entries =>
    simp only [ho] at h ⊢
    by_cases hl : (move_loop w (fun d_name => w.multirom_dir ++ "/roms/" ++ rom.name ++ "/root/"
        ++ d_name) "/realdata/" entries).1 ≠ 0
    · rw [if_pos hl] at h; exact absurd rfl h
    · rw [if_neg hl]; exact ⟨rfl, rfl⟩

theorem map_replace_same (l : List multirom_rom) (a b : multirom_rom) :
    l.map (fun r => if r = a then a else if r = b then b else r) = l := by
  have hf : (fun r : multirom_rom => if r = a then a else if r = b then b else r) = id := by
    funext r
    by_cases h1 : r = a
    · simp [h1]
    · by_cases h2 : r = b
      · rw [if_neg h1, if_pos h2, h2]; rfl
      · simp [h1, h2]
  rw [hf, List.map_id]

theorem map_replace_one (l : List multirom_rom) (a : multirom_rom) :
    l.map (fun r => if r = a then a else r) = l := by
  have hf : (fun r : multirom_rom => if r = a then a else r) = id := by
    funext r
    by_cases h1 : r = a
    · simp [h1]
    · simp [h1]
  rw [hf, List.map_id]

theorem root_swap_status (w : RootEnv) (s : multirom_status) (in_root to_boot : multirom_rom) :
    (root_swap w s in_root to_boot).status = s := by
  unfold root_swap
  simp only [move_out_rom, move_to_rom]
  by_cases h : (multirom_move_out_of_root w in_root).ret = -1
  · rw [if_pos h]; simp only [map_replace_one]
  · rw [if_neg h]; simp only [map_replace_same]

/-- C13, counterexample: in the registry `Internal` (in root), `cm`, `ubuntu` the
swap pair that puts `ubuntu` in the root succeeds, and afterwards the record of
`Internal` still has `is_in_root` set, the record of `ubuntu` still has it
clear, and `multirom_get_rom_in_root` still returns `Internal`, not the target.
Only the marker files changed. -/
theorem root_swap_records_unchanged :
    (root_swap c11_env first_boot internal_rom ubuntu_rom).ret = 0 ∧
    (root_swap c11_env first_boot internal_rom ubuntu_rom).status.roms.map
        (fun r => (r.name, r.is_in_root))
      = [("Internal", 1), ("cm", 0), ("ubuntu", 0)] ∧
    multirom_get_rom_in_root (root_swap c11_env first_boot internal_rom ubuntu_rom).status
      = some internal_rom ∧
    (root_swap c11_env first_boot internal_rom ubuntu_rom).unlinked
      = ["/realdata/media/multirom/roms/Internal/is_in_root"] ∧
    (root_swap c11_env first_boot internal_rom ubuntu_rom).created
      = ["/realdata/media/multirom/roms/ubuntu/is_in_root"] := by
  decide

/-- C13, amended: the swap pair stores to no ROM record. After it the status is
what it was: every record has the `is_in_root` it had (so as many records have
it set as before), and `multirom_get_rom_in_root` returns the same ROM as
before, the prior in-root ROM. What a successful pair changes is the marker
files: it unlinks the marker of the prior in-root ROM and creates the marker of
the target (if that file can be opened). -/
theorem root_swap_markers_only (w : RootEnv) (s : multirom_status)
    (in_root to_boot : multirom_rom) :
    (root_swap w s in_root to_boot).status = s ∧
    (root_swap w s in_root to_boot).status.roms.map (fun r => r.is_in_root)
      = s.roms.map (fun r => r.is_in_root) ∧
    multirom_get_rom_in_root (root_swap w s in_root to_boot).status
      = multirom_get_rom_in_root s ∧
    ((root_swap w s in_root to_boot).ret = 0 →
      (root_swap w s in_root to_boot).unlinked = [marker_path w in_root] ∧
      (root_swap w s in_root to_boot).created =
        (if w.fopen_w (marker_path w to_boot) then [marker_path w to_boot] else [])) := by
  have hs := root_swap_status w s in_root to_boot
  refine ⟨hs, by rw [hs], by rw [hs], ?_⟩
  unfold root_swap
  by_cases h : (multirom_move_out_of_root w in_root).ret = -1
  · rw [if_pos h]; intro h0; exact absurd h0 (by simp)
  · rw [if_neg h]
    simp only []
    by_cases h2 : (multirom_move_to_root w to_boot).ret = -1
    · rw [if_pos h2]; intro h0; exact absurd h0 (by simp)
    · intro _
      have ho := move_out_ok w in_root h
      have ht := move_to_ok w to_boot h2
      rw [ho.1, ho.2, ht.1, ht.2]
      exact ⟨rfl, rfl⟩

/-- Witness for C13 (amended): the swap of `Internal` and `ubuntu`. -/
theorem root_swap_markers_only_witness :
    (root_swap c11_env first_boot internal_rom ubuntu_rom).unlinked
      = [marker_path c11_env internal_rom] :=
  ((root_swap_markers_only c11_env first_boot internal_rom ubuntu_rom).2.2.2 (by decide)).1

/-- C18, evaluation at the failing input: with the live root holding `.`, `..`,
`..cache`, `media`, `system`, `app`, `multirom_move_out_of_root` moves `system`
and `app` only. The entry `..cache` is neither `.` nor `..` nor `media`, yet the
test `d_name[0] == '.' && (d_name[1] == '.' || d_name[1] == 0)` skips it: it is
left in the live root, and the function returns 0 and clears the marker. -/
theorem move_out_skips_dotdot_prefix :
    is_dot_entry "..cache" = true ∧
    multirom_move_out_of_root c18_env internal_rom =
      { ret := 0, rom := internal_rom,
        mkdirs := ["/realdata/media/multirom/roms/Internal/root/"],
        cmds := [["/realdata/media/multirom/busybox", "mv", "/realdata/system",
                  "/realdata/media/multirom/roms/Internal/root/"],
                 ["/realdata/media/multirom/busybox", "mv", "/realdata/app",
                  "/realdata/media/multirom/roms/Internal/root/"]],
        unlinked := ["/realdata/media/multirom/roms/Internal/is_in_root"],
        created := [] } := by
  decide

theorem default_status_current (w : ScanEnv) (s : multirom_status) (id : Int)
    (h : (multirom_default_status w s id).ret = 0) :
    ∃ rom, multirom_get_rom (multirom_default_status w s id).status INTERNAL_ROM_NAME = some rom ∧
      (multirom_default_status w s id).status.current_rom = some rom := by
  simp only [multirom_default_status] at h ⊢
  split at h
  · simp at h
  · split at h
    · simp at h
    · split at h
      · simp at h
      · rename_i h1 _ entries h2 _ rom h3
        simp only [if_neg h1]
        exact ⟨rom, by simpa [multirom_get_rom] using h3, rfl⟩

/-- C14, evaluation at the failing input: the folder of the Internal ROM is
missing and the dump of the running boot image fails (`dd` exits with status 1,
so `multirom_import_internal` returns 256), yet `multirom_default_status` returns
0: the result of the import is only compared with -1, and the scan finds the
folder the import made, without a boot image. -/
theorem default_status_ignores_failed_import :
    c14_env.opendir (c14_env.multirom_dir ++ "/roms/" ++ INTERNAL_ROM_NAME) = none ∧
    multirom_import_internal c14_env = 256 ∧
    (multirom_default_status c14_env usb_plugged 0).ret = 0 ∧
    (multirom_default_status c14_env usb_plugged 0).status.current_rom =
      some { id := 0, name := "Internal",
             base_path := "/realdata/media/multirom/roms/Internal",
             type := ROM_DEFAULT, is_in_root := 1, has_bootimg := 0, partition := none } := by
  decide

theorem qsort_roms_perm (w : ScanEnv) (l : List multirom_rom) : (qsort_roms w l).Perm l :=
  List.perm_insertionSort (rom_le w) l

theorem default_status_roms (w : ScanEnv) (s : multirom_status) (id : Int) :
    (multirom_default_status w s id).status.roms = [] ∨
    ∃ entries, w.opendir (w.multirom_dir ++ "/roms") = some entries ∧
      (multirom_default_status w s id).status.roms
        = qsort_roms w (scan_local w (w.multirom_dir ++ "/roms") id entries).1 := by
  simp only [multirom_default_status]
  split
  · exact Or.inl rfl
  · split
    · exact Or.inl rfl
    · rename_i entries ho
      refine Or.inr ⟨entries, by assumption, ?_⟩
      split <;> simp

theorem find_usb_roms_roms (w : ScanEnv) (s : multirom_status) (id : Int) :
    (multirom_find_usb_roms w s id).1.roms =
      s.roms.filter (fun r => !is_usb_type r.type)
        ++ qsort_roms w (scan_usb w id s.partitions).1 := rfl

theorem scan_rom_name (w : ScanEnv) (dir : String) (p : Option usb_partition) (id : Int)
    (d_name : String) : (scan_rom w dir p id d_name).name = d_name := rfl

theorem scan_local_names (w : ScanEnv) (roms_path : String) (id : Int) (entries : List String) :
    (scan_local w roms_path id entries).1.map (fun r => r.name)
      = entries.filter (local_entry_ok w roms_path) := by
  induction entries generalizing id with
  | nil => rfl
  | cons d rest ih =>
    by_cases h : local_entry_ok w roms_path d = true
    · simp [scan_local, h, ih, scan_rom_name]
    · simp [scan_local, h, ih]

theorem scan_usb_dir_names (w : ScanEnv) (p : usb_partition) (id : Int)
    (entries : List String) :
    (scan_usb_dir w p id entries).1.map (fun r => r.name)
      = entries.filter (fun d_name => d_name.toList.head? ≠ some '.') := by
  induction entries generalizing id with
  | nil => rfl
  | cons d rest ih =>
    simp only [scan_usb_dir, List.filter_cons]
    by_cases h : d.toList.head? = some '.'
    · have hd : decide (d.toList.head? ≠ some '.') = false := decide_eq_false (not_not.mpr h)
      rw [if_pos h, hd]
      simp only [Bool.false_eq_true, if_false]
      exact ih id
    · have hd : decide (d.toList.head? ≠ some '.') = true := decide_eq_true h
      rw [if_neg h, hd]
      simp only [if_true, List.map_cons, scan_rom_name]
      rw [ih]

theorem scan_usb_names (w : ScanEnv) (id : Int) (parts : List usb_partition) :
    (scan_usb w id parts).1.map (fun r => r.name) = usb_entry_names w parts := by
  induction parts generalizing id with
  | nil => rfl
  | cons p rest ih =>
    by_cases h : w.stat_ok (p.mount_path ++ "/multirom") = true
    · cases ho : w.opendir (p.mount_path ++ "/multirom") with
      | none => simp [scan_usb, usb_entry_names, h, ho, ih]
      | some entries =>
        simp [scan_usb, usb_entry_names, h, ho, ih, scan_usb_dir_names]
    · simp [scan_usb, usb_entry_names, h, ih]

/-- C17, counterexample: with a local ROM `cm` and a ROM `cm` on a USB
partition, the list after `multirom_default_status` and
`multirom_find_usb_roms` holds two ROMs named `cm`; `multirom_get_rom` returns
the local one. -/
theorem registry_duplicate_name_after_usb :
    registry_after_usb.roms.map (fun r => (r.name, r.base_path)) =
      [("Internal", "/realdata/media/multirom/roms/Internal"),
       ("cm", "/realdata/media/multirom/roms/cm"),
       ("zeta", "/realdata/media/multirom/roms/zeta"),
       ("alpha", "/mnt/sda1/multirom/alpha"),
       ("cm", "/mnt/sda1/multirom/cm")] ∧
    ¬ (registry_after_usb.roms.map (fun r => r.name)).Nodup ∧
    (multirom_get_rom registry_after_usb "cm").map (fun r => r.base_path)
      = some "/realdata/media/multirom/roms/cm" := by
  decide

/-- C17, amended: after `multirom_default_status` no two ROMs of the list have
the same name, the entries of the roms directory being distinct.
`multirom_find_usb_roms` compares no names: its list holds the ROMs kept from
before and one ROM for every entry, not starting with a dot, of the `multirom`
folder of every partition, under the entry's name, so a name may come twice;
`multirom_get_rom` then returns the first ROM of the list with the name. -/
theorem registry_names (w : ScanEnv) (s : multirom_status) (id : Int)
    (hdistinct : ∀ entries, w.opendir (w.multirom_dir ++ "/roms") = some entries →
      entries.Nodup) :
    ((multirom_default_status w s id).status.roms.map (fun r => r.name)).Nodup ∧
    ((multirom_find_usb_roms w s id).1.roms.map (fun r => r.name)).Perm
      ((s.roms.filter (fun r => !is_usb_type r.type)).map (fun r => r.name)
        ++ usb_entry_names w s.partitions) ∧
    (∀ name, multirom_get_rom (multirom_find_usb_roms w s id).1 name =
      (multirom_find_usb_roms w s id).1.roms.find? (fun r => r.name == name)) := by
  refine ⟨?_, ?_, fun _ => rfl⟩
  · rcases default_status_roms w s id with h | ⟨entries, ho, h⟩
    · rw [h]; exact List.nodup_nil
    · rw [h]
      have hp := (qsort_roms_perm w (scan_local w (w.multirom_dir ++ "/roms") id entries).1).map
        (fun r => r.name)
      rw [hp.nodup_iff, scan_local_names]
      exact (hdistinct entries ho).filter _
  · rw [find_usb_roms_roms, List.map_append, ← scan_usb_names w id s.partitions]
    exact List.Perm.append_left _ ((qsort_roms_perm w _).map _)

/-- Witness for C17 (amended): the local ROMs of `registry_env`. -/
theorem registry_names_witness :
    ((multirom_default_status registry_env usb_plugged 0).status.roms.map
      (fun r => r.name)).Nodup :=
  (registry_names registry_env usb_plugged 0 (by
    intro entries h
    have : entries = [".", "..", "zeta", "Internal", "cm"] := by
      have h2 : registry_env.opendir (registry_env.multirom_dir ++ "/roms")
          = some [".", "..", "zeta", "Internal", "cm"] := by decide
      rw [h2] at h
      exact (Option.some.inj h).symm
    rw [this]
    decide)).1

theorem mount_usb_cases (w : PartEnv) (part : usb_partition) :
    ((multirom_mount_usb w part).1 = 0 ∧
      (w.mkdir_ok ("/mnt/" ++ part.name)
        && w.mount_ok ("/dev/block/" ++ part.name) ("/mnt/" ++ part.name) part.fs) = true ∧
      (multirom_mount_usb w part).2 = { part with mount_path := "/mnt/" ++ part.name }) ∨
    ((multirom_mount_usb w part).1 ≠ 0 ∧
      (w.mkdir_ok ("/mnt/" ++ part.name)
        && w.mount_ok ("/dev/block/" ++ part.name) ("/mnt/" ++ part.name) part.fs) = false) := by
  unfold multirom_mount_usb
  cases h1 : w.mkdir_ok ("/mnt/" ++ part.name) <;>
    cases h2 : w.mount_ok ("/dev/block/" ++ part.name) ("/mnt/" ++ part.name) part.fs <;>
    simp [h1, h2]

theorem partitions_loop_eq (w : PartEnv) (lines : List (List Char))
    (added : List usb_partition) (h : partitions_loop w lines = some added) :
    added = (lines.filter fun l => (strstr l "/sd".toList).isSome).filterMap
      (mounted_partition w) := by
  induction lines generalizing added with
  | nil =>
    simp only [partitions_loop] at h
    rw [← Option.some.inj h]; rfl
  | cons p rest ih =>
    simp only [partitions_loop] at h
    by_cases hsd : (strstr p "/sd".toList).isNone = true
    · rw [if_pos hsd] at h
      have hs : (strstr p "/sd".toList).isSome = false := by
        cases hx : strstr p "/sd".toList <;> simp_all
      rw [List.filter_cons, hs]
      simp only [Bool.false_eq_true, if_false]
      exact ih added h
    · rw [if_neg hsd] at h
      have hs : (strstr p "/sd".toList).isSome = true := by
        cases hx : strstr p "/sd".toList <;> simp_all
      rw [List.filter_cons, hs]
      simp only [if_true, List.filterMap_cons]
      cases hp : parse_partition p with
      | none => simp [hp] at h
      | some part =>
        simp only [hp] at h
        cases hl : partitions_loop w rest with
        | none => simp [hl] at h
        | some tail =>
          simp only [hl] at h
          have iht := ih tail hl
          rcases mount_usb_cases w part with ⟨m1, m2, m3⟩ | ⟨m1, m2⟩
          · rw [if_pos m1, m3] at h
            simp only [mounted_partition, hp, m2, if_true]
            rw [← Option.some.inj h, iht]
          · rw [if_neg m1] at h
            simp only [mounted_partition, hp, m2, Bool.false_eq_true, if_false]
            rw [← Option.some.inj h, iht]

theorem mounted_partition_mounted (w : PartEnv) (line : List Char) (p : usb_partition)
    (h : mounted_partition w line = some p) :
    w.mount_ok ("/dev/block/" ++ p.name) p.mount_path p.fs = true := by
  unfold mounted_partition at h
  cases hp : parse_partition line with
  | none => simp [hp] at h
  | some part =>
    simp only [hp] at h
    by_cases hm : (w.mkdir_ok ("/mnt/" ++ part.name)
        && w.mount_ok ("/dev/block/" ++ part.name) ("/mnt/" ++ part.name) part.fs) = true
    · rw [if_pos hm] at h
      have := Option.some.inj h
      subst this
      simp only [Bool.and_eq_true] at hm
      exact hm.2
    · rw [if_neg hm] at h
      exact absurd h (by simp)

/-- C15: when `multirom_update_partitions` returns 0, the partition list of the
status is exactly: for every line of the partition-identification output that
contains "/sd" and whose mount succeeded, in output order, the partition with
the device name, UUID and type parsed from the line, mounted at `/mnt/<name>`.
The list does not depend on the previous list, and every partition in it was
mounted with success. -/
theorem update_partitions_list (w : PartEnv) (s : multirom_status)
    (h : (multirom_update_partitions w s).ret = some 0) :
    ∃ res, w.run_get_stdout [w.busybox_path, "blkid"] = some res ∧
      (multirom_update_partitions w s).status.partitions =
        ((strtok_lines res).filter fun l => (strstr l "/sd".toList).isSome).filterMap
          (mounted_partition w) ∧
      (∀ p ∈ (multirom_update_partitions w s).status.partitions,
        w.mount_ok ("/dev/block/" ++ p.name) p.mount_path p.fs = true) ∧
      (∀ s2 : multirom_status, (multirom_update_partitions w s2).status.partitions
        = (multirom_update_partitions w s).status.partitions) := by
  unfold multirom_update_partitions at h
  cases hr : w.run_get_stdout [w.busybox_path, "blkid"] with
  | none => simp [hr] at h
  | some res =>
    simp only [hr] at h
    cases hl : partitions_loop w (strtok_lines res) with
    | none => simp [hl] at h
    | some added =>
      have he := partitions_loop_eq w _ added hl
      have hparts : ∀ s2 : multirom_status,
          (multirom_update_partitions w s2).status.partitions = added := by
        intro s2
        simp [multirom_update_partitions, hr, hl]
      refine ⟨res, rfl, ?_, ?_, ?_⟩
      · rw [hparts s, he]
      · intro p hp
        rw [hparts s, he] at hp
        obtain ⟨line, _, hline⟩ := List.mem_filterMap.mp hp
        exact mounted_partition_mounted w line p hline
      · intro s2
        rw [hparts s2, hparts s]

/-- Witness for C15: of the four lines of `blkid_output` the two of the USB stick
contain "/sd"; the ext4 one mounts, the vfat one does not; the stale entry
`sdb1` of the old list is gone. -/
theorem update_partitions_list_witness :
    (multirom_update_partitions part_env stale_partitions).status.partitions =
      [{ name := "sda1", uuid := some "0a1b", fs := some "ext4", mount_path := "/mnt/sda1",
         keep_mounted := 0 }] ∧
    ∃ res, part_env.run_get_stdout [part_env.busybox_path, "blkid"] = some res ∧
      (multirom_update_partitions part_env stale_partitions).status.partitions =
        ((strtok_lines res).filter fun l => (strstr l "/sd".toList).isSome).filterMap
          (mounted_partition part_env) :=
  ⟨by decide,
   (update_partitions_list part_env stale_partitions (by decide)).imp
     fun _ hres => ⟨hres.1, hres.2.1⟩⟩

theorem partitions_loop_defined (w : PartEnv) (lines : List (List Char))
    (h : ∀ l ∈ lines, (strstr l "/sd".toList).isSome = true → (parse_partition l).isSome = true) :
    (partitions_loop w lines).isSome = true := by
  induction lines with
  | nil => rfl
  | cons p rest ih =>
    have ihr := ih (fun l hl => h l (List.mem_cons_of_mem _ hl))
    simp only [partitions_loop]
    by_cases hsd : (strstr p "/sd".toList).isNone = true
    · rw [if_pos hsd]; exact ihr
    · rw [if_neg hsd]
      have hs : (strstr p "/sd".toList).isSome = true := by
        cases hx : strstr p "/sd".toList <;> simp_all
      have hp := h p (List.mem_cons_self _ _) hs
      cases hpp : parse_partition p with
      | none => simp [hpp] at hp
      | some part =>
        cases hl : partitions_loop w rest with
        | none => simp [hl] at ihr
        | some tail =>
          simp only []
          by_cases hm : (multirom_mount_usb w part).1 = 0
          · rw [if_pos hm]; rfl
          · rw [if_neg hm]; rfl

theorem update_partitions_returns (w : PartEnv) (s : multirom_status) (res : List Char)
    (hres : w.run_get_stdout [w.busybox_path, "blkid"] = some res)
    (h : ∀ l ∈ strtok_lines res, (strstr l "/sd".toList).isSome = true →
      (parse_partition l).isSome = true) :
    (multirom_update_partitions w s).ret = some 0 := by
  have hd := partitions_loop_defined w (strtok_lines res) h
  unfold multirom_update_partitions
  simp only [hres]
  cases hl : partitions_loop w (strtok_lines res) with
  | none => simp [hl] at hd
  | some added => rfl

theorem move_loop_all_ok (w : RootEnv) (src_of : String → String) (dst : String)
    (entries : List String)
    (hok : ∀ d ∈ entries, is_dot_entry d = false → d ≠ "media" →
      w.run_command [w.busybox_path, "mv", src_of d, dst] = 0) :
    move_loop w src_of dst entries =
      (0, (entries.filter fun d => !is_dot_entry d && decide (d ≠ "media")).map
        fun d => [w.busybox_path, "mv", src_of d, dst]) := by
  induction entries with
  | nil => rfl
  | cons d rest ih =>
    have ihr := ih (fun x hx => hok x (List.mem_cons_of_mem _ hx))
    simp only [move_loop, List.filter_cons]
    by_cases h1 : is_dot_entry d = true
    · simp [h1, ihr]
    · by_cases h2 : d = "media"
      · simp [h1, h2, ihr]
      · have h0 := hok d (List.mem_cons_self _ _) (by simpa using h1) h2
        simp [h1, h2, h0, ihr]

theorem move_loop_first_failure (w : RootEnv) (src_of : String → String) (dst : String)
    (pre post : List String) (d : String)
    (hok : ∀ x ∈ pre, is_dot_entry x = false → x ≠ "media" →
      w.run_command [w.busybox_path, "mv", src_of x, dst] = 0)
    (hd1 : is_dot_entry d = false) (hd2 : d ≠ "media")
    (hfail : w.run_command [w.busybox_path, "mv", src_of d, dst] ≠ 0) :
    move_loop w src_of dst (pre ++ d :: post) =
      (-1, ((pre.filter fun x => !is_dot_entry x && decide (x ≠ "media")).map
        fun x => [w.busybox_path, "mv", src_of x, dst])
        ++ [[w.busybox_path, "mv", src_of d, dst]]) := by
  induction pre with
  | nil => simp [move_loop, hd1, hd2, hfail]
  | cons x rest ih =>
    have ihr := ih (fun y hy => hok y (List.mem_cons_of_mem _ hy))
    simp only [List.cons_append, move_loop, List.filter_cons]
    by_cases h1 : is_dot_entry x = true
    · simp [h1, ihr]
    · by_cases h2 : x = "media"
      · simp [h1, h2, ihr]
      · have h0 := hok x (List.mem_cons_self _ _) (by simpa using h1) h2
        simp [h1, h2, h0, ihr]

theorem fgets_take_replicate (m k : Nat) (t : List Char) :
    fgets_take (m + k) (List.replicate m 'a' ++ t) =
      (List.replicate m 'a' ++ (fgets_take k t).1, (fgets_take k t).2) := by
  induction m with
  | zero => simp
  | succ m ih =>
    have h : m + 1 + k = (m + k) + 1 := by omega
    rw [h, List.replicate_succ, List.cons_append, fgets_take]
    have hne : ('a' = '\n') = False := by decide
    simp only [hne, if_false, ih, List.cons_append]

theorem strstr_replicate (m : Nat) (t : List Char) (c : Char) (needle : List Char)
    (hc : c ≠ 'a') :
    strstr (List.replicate m 'a' ++ t) (c :: needle) = (strstr t (c :: needle)).map (· + m) := by
  induction m with
  | zero => simp
  | succ m ih =>
    rw [List.replicate_succ, List.cons_append, strstr]
    have hp : (c :: needle).isPrefixOf ('a' :: (List.replicate m 'a' ++ t)) = false := by
      simp [List.isPrefixOf, hc]
    rw [hp, ih]
    simp only [Bool.false_eq_true, if_false]
    cases strstr t (c :: needle) with
    | none => rfl
    | some i => simp only [Option.map_some']; congr 1

theorem read_lines_succ (size fuel : Nat) (c : Char) (t : List Char) :
    read_lines size (fuel + 1) (c :: t) =
      (fgets_take (size - 1) (c :: t)).1
        :: read_lines size fuel (fgets_take (size - 1) (c :: t)).2 := rfl

theorem has_replicate (m : Nat) (t : List Char) (s : String) (c : Char) (n : List Char)
    (hs : s.toList = c :: n) (hc : c ≠ 'a') :
    has (List.replicate m 'a' ++ t) s = has t s := by
  simp only [has, hs, strstr_replicate m t c n hc]
  cases strstr t (c :: n) <;> rfl

theorem begins_with_replicate (m : Nat) (t : List Char) (s : String) (c : Char)
    (n : List Char) (hs : s.toList = c :: n) (hc : c ≠ 'a') :
    begins_with (List.replicate (m + 1) 'a' ++ t) s = false := by
  simp only [begins_with, hs, strstr_replicate (m + 1) t c n hc]
  cases strstr t (c :: n) with
  | none => rfl
  | some i =>
    simp only [Option.map_some']
    have h : (some (i + (m + 1)) : Option Nat) ≠ some 0 := by
      intro h
      have := Option.some.inj h
      omega
    exact beq_false_of_ne h

theorem read_lines_nonempty (size fuel : Nat) (s : List Char) (h : s ≠ []) :
    read_lines size (fuel + 1) s =
      (fgets_take (size - 1) s).1 :: read_lines size fuel (fgets_take (size - 1) s).2 := by
  cases s with
  | nil => exact absurd rfl h
  | cons c t => rfl

theorem long_sd_length : long_sd.length = 1077 + 1 := by
  rw [long_sd, List.length_append, List.length_replicate]
  rfl

theorem long_sd_ne_nil : long_sd ≠ [] := by
  intro h
  have := congrArg List.length h
  rw [long_sd_length] at this
  exact absurd this (by decide)

theorem long_sd_chunks :
    read_lines 1024 long_sd.length long_sd =
      [List.replicate 1023 'a', "service sdcard /system/bin/sdcard\n".toList,
       "    class late_start\n".toList] := by
  rw [long_sd_length, read_lines_nonempty 1024 1077 long_sd long_sd_ne_nil]
  have hf : fgets_take (1024 - 1) long_sd =
      (List.replicate 1023 'a',
        "service sdcard /system/bin/sdcard\n    class late_start\n".toList) := by
    have h := fgets_take_replicate 1023 0
      "service sdcard /system/bin/sdcard\n    class late_start\n".toList
    rw [show fgets_take 0 "service sdcard /system/bin/sdcard\n    class late_start\n".toList
      = (([] : List Char), "service sdcard /system/bin/sdcard\n    class late_start\n".toList)
      from rfl, List.append_nil] at h
    exact h
  rw [hf]
  have hrest : read_lines 1024 1077
      "service sdcard /system/bin/sdcard\n    class late_start\n".toList =
      ["service sdcard /system/bin/sdcard\n".toList, "    class late_start\n".toList] := by
    decide
  rw [hrest]

theorem long_sd_lines :
    script_lines long_sd =
      [List.replicate 1023 'a' ++ "service sdcard /system/bin/sdcard\n".toList,
       "    class late_start\n".toList] := by
  unfold script_lines
  rw [long_sd_length, read_lines_nonempty (1077 + 1 + 1) 1077 long_sd long_sd_ne_nil]
  have hf : fgets_take (1077 + 1 + 1 - 1) long_sd =
      (List.replicate 1023 'a' ++ "service sdcard /system/bin/sdcard\n".toList,
        "    class late_start\n".toList) := by
    have h := fgets_take_replicate 1023 55
      "service sdcard /system/bin/sdcard\n    class late_start\n".toList
    have h55 : fgets_take 55 "service sdcard /system/bin/sdcard\n    class late_start\n".toList
        = ("service sdcard /system/bin/sdcard\n".toList, "    class late_start\n".toList) := by
      decide
    rw [h55] at h
    exact h
  rw [hf]
  have hrest : read_lines (1077 + 1 + 1) 1077 "    class late_start\n".toList =
      ["    class late_start\n".toList] := by
    decide
  rw [hrest]

theorem long_sd_output :
    rewrite_rc false long_sd =
      List.replicate 1023 'a'
        ++ "service sdcard /system/bin/sdcard\n    class main\n".toList := by
  have hA : List.replicate 1023 'a' = List.replicate 1023 'a' ++ [] := (List.append_nil _).symm
  have h1 : has (List.replicate 1023 'a') "on " = false := by
    rw [hA, has_replicate 1023 [] "on " 'o' "n ".toList rfl (by decide)]; rfl
  have h2 : is_mount_line (List.replicate 1023 'a') = false := by
    unfold is_mount_line
    rw [hA, has_replicate 1023 [] "mount_all" 'm' "ount_all".toList rfl (by decide),
      has_replicate 1023 [] "mount " 'm' "ount ".toList rfl (by decide)]
    rfl
  have h3 : begins_with (List.replicate 1023 'a') "service sdcard" = false := by
    rw [hA]
    exact begins_with_replicate 1022 [] "service sdcard" 's' "ervice sdcard".toList rfl
      (by decide)
  have h4 : rewrite_lines false ["service sdcard /system/bin/sdcard\n".toList,
      "    class late_start\n".toList] =
      ["service sdcard /system/bin/sdcard\n".toList, CLASS_MAIN] := by
    decide
  rw [rewrite_rc, long_sd_chunks, rewrite_lines_cons, h1, h2, h3]
  simp only [Bool.false_eq_true, if_false, h4, List.flatten_cons, List.flatten_nil,
    List.append_nil]
  congr 1

/-- C7, counterexample: the script `long_sd` has two lines; none contains
"mount_all" or "mount ", none begins with "service sdcard" (the first begins
with 1023 letters `a`). `fgets` reads the first line in two pieces, the second
piece begins with "service sdcard": the rewriter adds `    class main` and drops
the line `    class late_start`, so the output is not the script. -/
theorem rewrite_rc_long_line_changed :
    script_lines long_sd =
      [List.replicate 1023 'a' ++ "service sdcard /system/bin/sdcard\n".toList,
       "    class late_start\n".toList] ∧
    (∀ l ∈ script_lines long_sd, has l "mount_all" = false ∧ has l "mount " = false ∧
      begins_with l "service sdcard" = false) ∧
    rewrite_rc false long_sd =
      List.replicate 1023 'a'
        ++ "service sdcard /system/bin/sdcard\n    class main\n".toList ∧
    rewrite_rc false long_sd ≠ long_sd := by
  refine ⟨long_sd_lines, ?_, long_sd_output, ?_⟩
  · intro l hl
    rw [long_sd_lines] at hl
    simp only [List.mem_cons, List.mem_singleton, List.not_mem_nil, or_false] at hl
    rcases hl with h | h
    · subst h
      refine ⟨?_, ?_, ?_⟩
      · rw [has_replicate 1023 _ "mount_all" 'm' "ount_all".toList rfl (by decide)]
        decide
      · rw [has_replicate 1023 _ "mount " 'm' "ount ".toList rfl (by decide)]
        decide
      · exact begins_with_replicate 1022 _ "service sdcard" 's' "ervice sdcard".toList rfl
          (by decide)
    · subst h
      decide
  · rw [long_sd_output, long_sd]
    intro h
    have h2 := List.append_cancel_left h
    exact absurd h2 (by decide)

end MultiROM
